import Mathlib

/-!
Verification development for the quiz-generation backend.

The definitions below are a shallow embedding of the TypeScript sources:
the AI service (generateQuiz, parseAIResponse, createQuizInDatabase), the
Redis cache wrapper (RedisService), and the Express quiz routes
(POST /submit, GET /:id).  JavaScript strings are modelled as Lean
strings manipulated through their character lists; machine time
(Date.now) is an integer number of milliseconds supplied by the
environment; the database and cache are explicit state records, with
boolean flags injecting the failure of each external write the way a
fault-injection test would.
-/

/-! ## JavaScript string primitives, modelled on character lists -/

/-- Model of JS String.prototype.trim: drop whitespace from both ends. -/
def trimChars (l : List Char) : List Char :=
  ((l.dropWhile Char.isWhitespace).reverse.dropWhile Char.isWhitespace).reverse

/-- Model of s.trim() on strings. -/
def jsTrim (s : String) : String := String.mk (trimChars s.data)

/-- Model of s.toLowerCase() (ASCII, as used for model names and topics). -/
def jsToLower (s : String) : String := String.mk (s.data.map Char.toLower)

/-- Model of s.toLowerCase().trim(), the topic normalisation in generateQuiz. -/
def jsLowerTrim (s : String) : String := String.mk (trimChars (s.data.map Char.toLower))

/-- Model of s.substring(n): drop the first n characters (clamped). -/
def jsDrop (s : String) (n : Nat) : String := String.mk (s.data.drop n)

/-- Character-list version of startsWith: p is an initial segment of l. -/
def strStartsWith : List Char → List Char → Bool
  | [], _ => true
  | _ :: _, [] => false
  | a :: p, b :: l => a = b && strStartsWith p l

/-- Model of s.startsWith(p). -/
def jsStartsWith (s p : String) : Bool := strStartsWith p.data s.data

/-- Split a character list at every occurrence of a separator character. -/
def splitOnCharAux (sep : Char) : List Char → List Char → List (List Char)
  | [], acc => [acc.reverse]
  | c :: cs, acc =>
    if c = sep then acc.reverse :: splitOnCharAux sep cs []
    else splitOnCharAux sep cs (c :: acc)

/-- Model of s.split(newline-character) as used on each question block. -/
def jsSplitNewline (s : String) : List String :=
  (splitOnCharAux '\n' s.data []).map String.mk

/-- Model of the regex split marker: recognise a Q-then-digits-then-colon
marker at the head of the list and return the remainder after it. -/
def matchQMarker : List Char → Option (List Char)
  | 'Q' :: rest =>
    match rest.dropWhile Char.isDigit with
    | ':' :: tail => if rest.takeWhile Char.isDigit = [] then none else some tail
    | _ => none
  | _ => none

/-- Fuelled splitter for response.split(marker regex): emit the text between
markers, in order.  Fuel at least length + 1 makes the fuel-out case dead. -/
def splitQAux : Nat → List Char → List Char → List (List Char)
  | 0, l, acc => [acc.reverse ++ l]
  | _ + 1, [], acc => [acc.reverse]
  | f + 1, c :: cs, acc =>
    match matchQMarker (c :: cs) with
    | some tail => acc.reverse :: splitQAux f tail []
    | none => splitQAux f cs (c :: acc)

/-- Model of response.split(marker regex) in parseAIResponse. -/
def jsSplitQMarkers (s : String) : List String :=
  (splitQAux (s.data.length + 1) s.data []).map String.mk

/-! ## The parser (parseAIResponse in the AI service) -/

/-- The four labelled options of a question, as the object literal built by
the parser and stored in the database. -/
structure Options4 where
  A : String
  B : String
  C : String
  D : String
deriving DecidableEq

/-- One parsed question, exactly the object pushed by parseAIResponse:
question text, four options, a validated correct label, explanation. -/
structure ParsedQuestion where
  question : String
  options : Options4
  correctAnswer : String
  explanation : String
deriving DecidableEq

/-- The mutable locals of the per-block loop in parseAIResponse. -/
structure OptState where
  A : String
  B : String
  C : String
  D : String
  correct : Option String
  explanation : String
deriving DecidableEq

/-- Initial per-block parser state: empty options, no correct answer. -/
def optInit : OptState := ⟨"", "", "", "", none, ""⟩

/-- One iteration of the line loop of parseAIResponse: match the option
markers, the Correct marker (with label validation) and the Explanation
marker, in the source order of the if-else chain. -/
def parseLineStep (st : OptState) (line : String) : OptState :=
  if jsStartsWith line "A)" then { st with A := jsTrim (jsDrop line 2) }
  else if jsStartsWith line "B)" then { st with B := jsTrim (jsDrop line 2) }
  else if jsStartsWith line "C)" then { st with C := jsTrim (jsDrop line 2) }
  else if jsStartsWith line "D)" then { st with D := jsTrim (jsDrop line 2) }
  else if jsStartsWith line "Correct:" then
    let answer := jsTrim (jsDrop line 8)
    if ["A", "B", "C", "D"].contains answer then { st with correct := some answer }
    else st
  else if jsStartsWith line "Explanation:" then
    { st with explanation := jsTrim (jsDrop line 12) }
  else st

/-- Per-block parsing in parseAIResponse: trim the block, split into
non-blank lines, require at least six lines, take the first line as the
question text, run the line loop, and keep the block only when all four
options are non-empty and a valid correct label was seen. -/
def parseBlock (block : String) : Option ParsedQuestion :=
  let lines := (jsSplitNewline (jsTrim block)).filter (fun l => jsTrim l != "")
  if lines.length < 6 then none
  else
    let questionText := jsTrim (lines.headD "")
    let fin := lines.foldl parseLineStep optInit
    if fin.A ≠ "" ∧ fin.B ≠ "" ∧ fin.C ≠ "" ∧ fin.D ≠ "" then
      match fin.correct with
      | some ca => some ⟨questionText, ⟨fin.A, fin.B, fin.C, fin.D⟩, ca, fin.explanation⟩
      | none => none
    else none

/-- Model of parseAIResponse.  The source splits on the question markers,
drops blank blocks, parses each block, and, when no block yields a valid
question, throws; that throw is caught by the surrounding catch block and
resurfaced as the fixed message below, so the function either returns at
most five questions or fails with that message.  A non-empty result is
truncated to five entries. -/
def parseAIResponse (response : String) : Except String (List ParsedQuestion) :=
  let blocks := (jsSplitQMarkers response).filter (fun b => jsTrim b != "")
  let questions := blocks.filterMap parseBlock
  if questions.length = 0 then
    Except.error "Failed to parse AI response. Please try again."
  else Except.ok (questions.take 5)

/-- Decidable equality for Except values, used to evaluate concrete runs. -/
instance exceptDecEq {ε α : Type} [DecidableEq ε] [DecidableEq α] : DecidableEq (Except ε α)
  | Except.error e, Except.error f =>
    if h : e = f then isTrue (by rw [h])
    else isFalse (fun hh => by cases hh; exact h rfl)
  | Except.error e, Except.ok b => isFalse (fun hh => by cases hh)
  | Except.ok a, Except.error f => isFalse (fun hh => by cases hh)
  | Except.ok a, Except.ok b =>
    if h : a = b then isTrue (by rw [h])
    else isFalse (fun hh => by cases hh; exact h rfl)

/-! ## Quiz views and persisted records -/

/-- The question object of the external (frontend) quiz view, as a JSON
object.  The TypeScript interface declares only id, question and options;
at runtime a JSON object may or may not carry a correctAnswer or an
explanation key, so those are modelled as optional fields whose value
none means the key is absent.  The sanitisation claims are about these
two fields being none. -/
structure FrontQuestion where
  id : String
  question : String
  options : Options4
  correctAnswer : Option String
  explanation : Option String
deriving DecidableEq

/-- The external quiz view returned to callers and stored in the cache. -/
structure FrontQuiz where
  id : String
  topic : String
  model : String
  questions : List FrontQuestion
  createdAt : Int
  expiresAt : Int
deriving DecidableEq

/-- A persisted Question row (with correct answer and explanation). -/
structure DbQuestion where
  id : Nat
  questionText : String
  options : Options4
  correctAnswer : String
  explanation : String
  questionOrder : Nat
deriving DecidableEq

/-- A persisted Quiz row together with its question rows. -/
structure DbQuiz where
  id : Nat
  topic : String
  model : String
  userId : Option Nat
  createdAt : Int
  expiresAt : Int
  isAiGenerated : Bool
  cacheKey : String
  questions : List DbQuestion
deriving DecidableEq

/-- A persisted QuizSubmission row. -/
structure DbSubmission where
  id : Nat
  quizId : Nat
  userId : Option Nat
  score : Nat
  totalQuestions : Nat
  percentage : Nat
deriving DecidableEq

/-- A persisted UserAnswer row. -/
structure DbUserAnswer where
  submissionId : Nat
  questionId : Nat
  userAnswer : String
  isCorrect : Bool
deriving DecidableEq

/-! ## Cache (RedisService) -/

/-- State of the Redis cache.  Entries map keys to the quiz views this
code serialises into them (JSON round-tripping is the identity on the
values this program writes).  The two flags inject a client error into
every get respectively set call, the way an unreachable Redis would. -/
structure CacheState where
  entries : List (String × FrontQuiz)
  getFails : Bool
  setFails : Bool
deriving DecidableEq

/-- Assoc-list lookup for cache entries. -/
def cacheLookup (k : String) : List (String × FrontQuiz) → Option FrontQuiz
  | [] => none
  | (k2, v) :: rest => if k2 = k then some v else cacheLookup k rest

/-- Assoc-list overwrite-or-append for cache entries (redis SET). -/
def cacheInsert (k : String) (v : FrontQuiz) : List (String × FrontQuiz) → List (String × FrontQuiz)
  | [] => [(k, v)]
  | (k2, v2) :: rest =>
    if k2 = k then (k, v) :: rest else (k2, v2) :: cacheInsert k v rest

/-- The key wrapper shared by getQuizCache and setQuizCache in
RedisService: lowercase the given string and replace every maximal
whitespace run by one underscore, then add the quiz namespace. -/
def collapseWsAux : Bool → List Char → List Char
  | _, [] => []
  | inWs, c :: cs =>
    if c.isWhitespace then
      if inWs then collapseWsAux true cs else '_' :: collapseWsAux true cs
    else c :: collapseWsAux false cs

/-- Model of s.replace(whitespace-run regex, underscore). -/
def jsCollapseWs (s : String) : String := String.mk (collapseWsAux false s.data)

/-- The redis key actually used by RedisService.getQuizCache/setQuizCache. -/
def redisQuizKey (topicArg : String) : String :=
  "quiz:" ++ jsCollapseWs (jsToLower topicArg)

/-- RedisService.get: on any client error the catch block returns null,
so a failing cache read behaves as a miss. -/
def redisGet (c : CacheState) (k : String) : Option FrontQuiz :=
  if c.getFails then none else cacheLookup k c.entries

/-- RedisService.set: on a client error the catch block logs and
rethrows, so a failing cache write surfaces as an error to the caller.
The underlying client error message is modelled by a fixed string. -/
def redisSet (c : CacheState) (k : String) (v : FrontQuiz) : Except String CacheState :=
  if c.setFails then Except.error "Redis set error"
  else Except.ok { c with entries := cacheInsert k v c.entries }

/-- RedisService.getQuizCache: wrap the key and get. -/
def redisGetQuizCache (c : CacheState) (topicArg : String) : Option FrontQuiz :=
  redisGet c (redisQuizKey topicArg)

/-- RedisService.setQuizCache: wrap the key and set (the TTL only sets a
redis expiry and does not affect the state observed by this model). -/
def redisSetQuizCache (c : CacheState) (topicArg : String) (v : FrontQuiz) : Except String CacheState :=
  redisSet c (redisQuizKey topicArg) v

/-! ## Database (Prisma) state -/

/-- The durable store plus fault-injection flags for each write the
submit route and the AI service perform. -/
structure DbState where
  quizzes : List DbQuiz
  submissions : List DbSubmission
  userAnswers : List DbUserAnswer
  nextQuizId : Nat
  nextQuestionId : Nat
  nextSubmissionId : Nat
  quizCreateFails : Bool
  submissionCreateFails : Bool
  userAnswerCreateFails : Bool
  submissionDeleteFails : Bool
deriving DecidableEq

/-- Stable insertion sort of question rows by ascending questionOrder,
modelling orderBy questionOrder asc. -/
def insertByOrder (q : DbQuestion) : List DbQuestion → List DbQuestion
  | [] => [q]
  | r :: rest =>
    if q.questionOrder < r.questionOrder then q :: r :: rest
    else r :: insertByOrder q rest

/-- Question rows of a quiz sorted by ascending questionOrder. -/
def sortedQuestions (z : DbQuiz) : List DbQuestion :=
  z.questions.foldr insertByOrder []

/-- Stable insertion sort of quiz rows by descending createdAt,
modelling orderBy createdAt desc. -/
def insertByCreatedDesc (z : DbQuiz) : List DbQuiz → List DbQuiz
  | [] => [z]
  | r :: rest =>
    if z.createdAt > r.createdAt then z :: r :: rest
    else r :: insertByCreatedDesc z rest

/-- prisma.quiz.findMany with where topic/model, orderBy createdAt desc,
take 5, as issued by generateQuiz. -/
def dbFindRecentQuizzes (db : DbState) (topicTrimmed model : String) : List DbQuiz :=
  ((db.quizzes.filter (fun z => z.topic == topicTrimmed && z.model == model)).foldr
    insertByCreatedDesc []).take 5

/-- prisma.quiz.findUnique by id. -/
def dbFindQuiz (db : DbState) (quizId : Nat) : Option DbQuiz :=
  db.quizzes.find? (fun z => z.id == quizId)

/-! ## Environment of one request -/

/-- Per-request environment: the configured model list, the cache TTL,
Date.now(), and the outcome of one chat/completion call against each
provider family.  Each outcome abstracts the whole adapter call
(credentials check, transport, response extraction): ok r is a response
body, error is a thrown adapter error. -/
structure Env where
  availableModels : List String
  redisCacheTTL : Nat
  now : Int
  openaiResult : Except String String
  anthropicResult : Except String String
deriving DecidableEq

/-- getProviderFromModel: static prefix routing with an openai default. -/
def getProviderFromModel (model : String) : String :=
  if jsStartsWith model "gpt-" then "openai"
  else if jsStartsWith model "claude-" then "anthropic"
  else "openai"

/-- The provider call made by generateQuiz once a model is validated. -/
def callProvider (env : Env) (model : String) : Except String String :=
  if getProviderFromModel model = "openai" then env.openaiResult
  else env.anthropicResult

/-! ## The AI service (generateQuiz and createQuizInDatabase) -/

/-- The whole mutable world of a request: cache plus durable store. -/
structure SysState where
  cache : CacheState
  db : DbState
deriving DecidableEq

/-- The deterministic cache key derived in generateQuiz (and stored on
the quiz row by createQuizInDatabase). -/
def quizCacheKey (topic model : String) : String :=
  "quiz:" ++ jsLowerTrim topic ++ ":" ++ model

/-- Reuse-path conversion of a stored quiz to the frontend view
(generateQuiz lines building frontendQuiz): ids stringified, question
rows mapped to id/question/options only. -/
def toFrontendQuiz (z : DbQuiz) : FrontQuiz :=
  { id := toString z.id
    topic := z.topic
    model := z.model
    questions := z.questions.map (fun q =>
      { id := toString q.id
        question := q.questionText
        options := q.options
        correctAnswer := none
        explanation := none })
    createdAt := z.createdAt
    expiresAt := z.expiresAt }

/-- Question rows created by the nested create in createQuizInDatabase:
ids are assigned by the store, questionOrder is index + 1. -/
def assignQuestionRows (firstId : Nat) : List ParsedQuestion → Nat → List DbQuestion
  | [], _ => []
  | q :: qs, idx =>
    { id := firstId + idx
      questionText := q.question
      options := q.options
      correctAnswer := q.correctAnswer
      explanation := q.explanation
      questionOrder := idx + 1 } :: assignQuestionRows firstId qs (idx + 1)

/-- createQuizInDatabase: persist the quiz with its question rows (24h
expiry, deterministic cache key) and derive the sanitised frontend view,
with correctAnswer and explanation omitted from every question.  A store
error is caught and rethrown as the fixed message below. -/
def createQuizInDatabase (db : DbState) (topic model : String)
    (questions : List ParsedQuestion) (userId : Option Nat) (now : Int) :
    Except String (FrontQuiz × DbState) :=
  if db.quizCreateFails then Except.error "Failed to save quiz to database"
  else
    let rows := assignQuestionRows db.nextQuestionId questions 0
    let row : DbQuiz :=
      { id := db.nextQuizId
        topic := topic
        model := model
        userId := userId
        createdAt := now
        expiresAt := now + 86400000
        isAiGenerated := true
        cacheKey := quizCacheKey topic model
        questions := rows }
    let front : FrontQuiz :=
      { id := toString row.id
        topic := row.topic
        model := row.model
        questions := rows.map (fun q =>
          { id := toString q.id
            question := q.questionText
            options := q.options
            correctAnswer := none
            explanation := none })
        createdAt := row.createdAt
        expiresAt := row.expiresAt }
    Except.ok (front,
      { db with
          quizzes := db.quizzes ++ [row]
          nextQuizId := db.nextQuizId + 1
          nextQuestionId := db.nextQuestionId + questions.length })

/-- The generation tail of generateQuiz (after the cache and reuse
probes): validate the model against AVAILABLE_MODELS, call the routed
provider, reject an empty response, parse, reject an empty parse, then
persist and cache the new quiz. -/
def generateFresh (env : Env) (st : SysState) (topic model : String)
    (userId : Option Nat) (cacheKey : String) :
    Except String FrontQuiz × SysState :=
  if (env.availableModels.contains model) = false then
    (Except.error ("Invalid model: " ++ model ++ ". Available models: " ++
      String.intercalate ", " env.availableModels), st)
  else
    match callProvider env model with
    | Except.error e => (Except.error e, st)
    | Except.ok response =>
      if response = "" then (Except.error "No response from AI service", st)
      else
        match parseAIResponse response with
        | Except.error e => (Except.error e, st)
        | Except.ok questions =>
          if questions.length = 0 then
            (Except.error "Failed to parse AI response. Please try again with a different topic.", st)
          else
            match createQuizInDatabase st.db topic model questions userId env.now with
            | Except.error e => (Except.error e, st)
            | Except.ok (quiz, db2) =>
              match redisSetQuizCache st.cache cacheKey quiz with
              | Except.error e => (Except.error e, { st with db := db2 })
              | Except.ok c2 => (Except.ok quiz, { cache := c2, db := db2 })

/-- The body of generateQuiz before its catch wrapper: derive the cache
key, and unless forceNew is set probe the cache, then the durable store
for up to five recent quizzes of the same trimmed topic and model, reuse
the most recent one when it is younger than 24 hours (refreshing the
cache, whose write failure propagates), and otherwise generate fresh. -/
def generateQuizCore (env : Env) (st : SysState) (topic model : String)
    (userId : Option Nat) (forceNew : Bool) :
    Except String FrontQuiz × SysState :=
  let cacheKey := quizCacheKey topic model
  if forceNew = false then
    match redisGetQuizCache st.cache cacheKey with
    | some cached => (Except.ok cached, st)
    | none =>
      match (dbFindRecentQuizzes st.db (jsTrim topic) model).head? with
      | some recent =>
        if recent.createdAt > env.now - 86400000 then
          let fq := toFrontendQuiz recent
          match redisSetQuizCache st.cache cacheKey fq with
          | Except.error e => (Except.error e, st)
          | Except.ok c2 => (Except.ok fq, { st with cache := c2 })
        else generateFresh env st topic model userId cacheKey
      | none => generateFresh env st topic model userId cacheKey
  else generateFresh env st topic model userId cacheKey

/-- generateQuiz: the core wrapped in the catch block that prepends the
generation-failure message to any thrown error. -/
def generateQuiz (env : Env) (st : SysState) (topic model : String)
    (userId : Option Nat) (forceNew : Bool) :
    Except String FrontQuiz × SysState :=
  match generateQuizCore env st topic model userId forceNew with
  | (Except.error e, st2) => (Except.error ("Failed to generate quiz: " ++ e), st2)
  | ok => ok

/-! ## The submit route (POST /submit in routes/quiz.ts) -/

/-- HTTP error responses of the quiz routes, by status code family. -/
inductive HttpError where
  | badRequest : String → HttpError
  | notFound : String → HttpError
  | forbidden : String → HttpError
  | internal : String → HttpError
deriving DecidableEq

/-- One entry of the per-question results array built while scoring. -/
structure AnswerResult where
  questionIndex : Nat
  userAnswer : String
  correctAnswer : String
  isCorrect : Bool
  explanation : String
deriving DecidableEq

/-- The successful QuizResult payload of the submit route. -/
structure SubmitOk where
  quizId : Nat
  score : Nat
  totalQuestions : Nat
  percentage : Nat
  results : List AnswerResult
  feedback : String
deriving DecidableEq

/-- The scoring map of the submit route: iterate over the submitted
answers, indexing the stored questions at the same position.  An answer
index beyond the stored questions dereferences an undefined row in the
source, a thrown TypeError modelled as none; otherwise each entry records
the submitted label, the stored label, the comparison, and the stored
explanation with its empty-string fallback. -/
def gradeAnswers : List String → List DbQuestion → Nat → Option (List AnswerResult)
  | [], _, _ => some []
  | a :: rest, q :: qs, idx =>
    match gradeAnswers rest qs (idx + 1) with
    | none => none
    | some tail =>
      some ({ questionIndex := idx
              userAnswer := a
              correctAnswer := q.correctAnswer
              isCorrect := a == q.correctAnswer
              explanation := if q.explanation = "" then "No explanation available" else q.explanation } :: tail)
  | _ :: _, [], _ => none

/-- The correctAnswers counter accumulated by the scoring map. -/
def countCorrect (results : List AnswerResult) : Nat :=
  (results.filter (fun r => r.isCorrect)).length

/-- Model of Math.round((score / totalQuestions) * 100): the rational
100 * score / total rounded half-up, computed exactly. -/
def mathRound100 (score total : Nat) : Nat :=
  (200 * score + total) / (2 * total)

/-- The userAnswersData array built before the batch write: the same
pairing of answers with stored questions, recording the row keys. -/
def buildUserAnswers (sid : Nat) : List String → List DbQuestion → List DbUserAnswer
  | [], _ => []
  | a :: rest, q :: qs =>
    { submissionId := sid
      questionId := q.id
      userAnswer := a
      isCorrect := a == q.correctAnswer } :: buildUserAnswers sid rest qs
  | _ :: _, [] => []

/-- The feedback lookup of the quiz router. -/
def getFeedback (percentage : Nat) : String :=
  if percentage ≥ 90 then "Excellent! You have a deep understanding of this topic."
  else if percentage ≥ 80 then "Great job! You have a solid grasp of this topic."
  else if percentage ≥ 70 then "Good work! You understand most of the key concepts."
  else if percentage ≥ 60 then "Not bad! You have a basic understanding but room for improvement."
  else if percentage ≥ 50 then "You\x27re on the right track! Review the material and try again."
  else "Keep studying! This topic needs more attention."

/-- The POST /submit handler.  Parameters model the request body (none is
a missing field) and the authenticated user.  The body: validate the
fields, load the quiz with its questions ordered by questionOrder,
reject expired quizzes, reject foreign quizzes, score, persist the
QuizSubmission, then the UserAnswer batch; when the batch write fails the
handler attempts a compensating delete of the submission (itself allowed
to fail, in which case the row stays) and surfaces an internal error;
every thrown error is caught by the route and mapped to the fixed
internal message. -/
def submitRoute (env : Env) (db : DbState) (quizId : Option Nat)
    (answers : Option (List String)) (userId : Option Nat) :
    Except HttpError SubmitOk × DbState :=
  match quizId, answers with
  | none, _ => (Except.error (HttpError.badRequest "Quiz ID and answers array are required"), db)
  | _, none => (Except.error (HttpError.badRequest "Quiz ID and answers array are required"), db)
  | some qid, some ans =>
    match dbFindQuiz db qid with
    | none => (Except.error (HttpError.notFound "Quiz not found"), db)
    | some quiz0 =>
      if env.now > quiz0.expiresAt then
        (Except.error (HttpError.badRequest "Quiz has expired"), db)
      else if quiz0.userId.getD 0 ≠ 0 ∧ quiz0.userId ≠ userId then
        (Except.error (HttpError.forbidden "Access denied. You can only submit your own quizzes."), db)
      else
        let questions := sortedQuestions quiz0
        match gradeAnswers ans questions 0 with
        | none => (Except.error (HttpError.internal "Failed to process quiz submission. Please try again."), db)
        | some results =>
          let score := countCorrect results
          let totalQuestions := questions.length
          let percentage := mathRound100 score totalQuestions
          if db.submissionCreateFails then
            (Except.error (HttpError.internal "Failed to process quiz submission. Please try again."), db)
          else
            let sid := db.nextSubmissionId
            let row : DbSubmission :=
              { id := sid
                quizId := qid
                userId := userId
                score := score
                totalQuestions := totalQuestions
                percentage := percentage }
            let db1 := { db with
                           submissions := db.submissions ++ [row]
                           nextSubmissionId := sid + 1 }
            if db1.userAnswerCreateFails then
              let db2 :=
                if db1.submissionDeleteFails then db1
                else { db1 with submissions := db1.submissions.filter (fun s => s.id != sid) }
              (Except.error (HttpError.internal "Failed to process quiz submission. Please try again."), db2)
            else
              (Except.ok
                { quizId := qid
                  score := score
                  totalQuestions := totalQuestions
                  percentage := percentage
                  results := results
                  feedback := getFeedback percentage },
               { db1 with userAnswers := db1.userAnswers ++ buildUserAnswers sid ans questions })

/-! ## The retrieval route (GET /:id in routes/quiz.ts) -/

/-- The GET /:id handler: load the quiz with ordered questions, enforce
ownership, and return the review view with correctAnswer and explanation
omitted from every question. -/
def getQuizRoute (db : DbState) (quizId : Nat) (userId : Option Nat) :
    Except HttpError FrontQuiz :=
  match dbFindQuiz db quizId with
  | none => Except.error (HttpError.notFound "Quiz not found")
  | some quiz0 =>
    if quiz0.userId.getD 0 ≠ 0 ∧ quiz0.userId ≠ userId then
      Except.error (HttpError.forbidden "Access denied. You can only access your own quizzes.")
    else
      Except.ok
        { id := toString quiz0.id
          topic := quiz0.topic
          model := quiz0.model
          questions := (sortedQuestions quiz0).map (fun q =>
            { id := toString q.id
              question := q.questionText
              options := q.options
              correctAnswer := none
              explanation := none })
          createdAt := quiz0.createdAt
          expiresAt := quiz0.expiresAt }

/-! ## Specification-side predicates -/

/-- A question view is sanitised when neither sensitive key is present. -/
def sanitizedQuestion (q : FrontQuestion) : Prop :=
  q.correctAnswer = none ∧ q.explanation = none

/-- A quiz view is sanitised when every question of it is. -/
def sanitizedQuiz (fq : FrontQuiz) : Prop :=
  ∀ q ∈ fq.questions, sanitizedQuestion q

/-- The cache invariant: every stored entry is a sanitised view.  All
cache writes in this codebase are of sanitised views, so the invariant
holds of every reachable cache state. -/
def cacheSanitized (c : CacheState) : Prop :=
  ∀ e ∈ c.entries, sanitizedQuiz e.2

/-- Specification-side grading: the positional comparison flags of the
submitted labels against the stored labels. -/
def matchFlags (answers : List String) (qs : List DbQuestion) : List Bool :=
  List.zipWith (fun a q => a == q.correctAnswer) answers qs

/-- Specification-side score: the number of positional matches. -/
def countMatches (answers : List String) (qs : List DbQuestion) : Nat :=
  (matchFlags answers qs).count true

/-! ## Well-formed provider output: the render used to state the parser
round-trip.  A response containing k complete question blocks is
formalised as the rendering of k parsed questions whose text fields are
safe: non-empty, made of alphanumeric characters and inner spaces only,
so they cannot collide with the block markers or line markers of the
response format requested by createQuizPrompt. -/

/-- Characters allowed in rendered text fields: alphanumeric or space. -/
def safeChar (c : Char) : Bool := c.isAlphanum || c == ' '

/-- A safe text field: non-empty, safe characters, no edge spaces. -/
def safeText (s : String) : Bool :=
  !s.data.isEmpty && s.data.all safeChar &&
    s.data.head? != some ' ' && s.data.getLast? != some ' '

/-- A question renderable as one complete well-formed block. -/
def safeQuestion (q : ParsedQuestion) : Bool :=
  safeText q.question && safeText q.options.A && safeText q.options.B &&
    safeText q.options.C && safeText q.options.D && safeText q.explanation &&
    ["A", "B", "C", "D"].contains q.correctAnswer

/-- All questions of a list are renderable. -/
def allSafe (qs : List ParsedQuestion) : Bool := qs.all safeQuestion

/-- Digit used in the marker of the block at a given index. -/
def ordChar (i : Nat) : Char := ['1', '2', '3', '4', '5'].getD i '9'

/-- The body of one rendered block, after its marker: the question line,
the four option lines, the Correct line and the Explanation line, in the
template of createQuizPrompt. -/
def blockBody (q : ParsedQuestion) : List Char :=
  ' ' :: q.question.data ++ "\nA) ".data ++ q.options.A.data ++
    "\nB) ".data ++ q.options.B.data ++ "\nC) ".data ++ q.options.C.data ++
    "\nD) ".data ++ q.options.D.data ++ "\nCorrect: ".data ++
    q.correctAnswer.data ++ "\nExplanation: ".data ++ q.explanation.data ++ ['\n']

/-- The rendered blocks from a given index on: marker then body, chained. -/
def renderChars : Nat → List ParsedQuestion → List Char
  | _, [] => []
  | i, q :: qs => 'Q' :: ordChar i :: ':' :: (blockBody q ++ renderChars (i + 1) qs)

/-- A provider response consisting of the complete blocks of the given
questions, in order. -/
def renderQuestions (qs : List ParsedQuestion) : String :=
  String.mk (renderChars 0 qs)

/-! ## Concrete fixtures -/

/-- Five renderable questions used as the well-formed provider output. -/
def demoParsed5 : List ParsedQuestion :=
  [⟨"What is two plus two", ⟨"three", "four", "five", "six"⟩, "B", "basic arithmetic"⟩,
   ⟨"Color of the sky", ⟨"blue", "red", "green", "black"⟩, "A", "scattering"⟩,
   ⟨"Largest planet", ⟨"Mars", "Venus", "Jupiter", "Pluto"⟩, "C", "gas giant"⟩,
   ⟨"Water formula", ⟨"CO2", "NaCl", "O2", "H2O"⟩, "D", "chemistry"⟩,
   ⟨"First prime", ⟨"two", "one", "zero", "four"⟩, "A", "number theory"⟩]

/-- Three renderable questions, a provider output with only three blocks. -/
def demoParsed3 : List ParsedQuestion :=
  [⟨"Alpha", ⟨"a1", "b1", "c1", "d1"⟩, "A", "e1"⟩,
   ⟨"Beta", ⟨"a2", "b2", "c2", "d2"⟩, "B", "e2"⟩,
   ⟨"Gamma", ⟨"a3", "b3", "c3", "d3"⟩, "C", "e3"⟩]

/-- A provider response with five complete question blocks. -/
def sample5Text : String := renderQuestions demoParsed5

/-- A provider response with three complete question blocks. -/
def sample3Text : String := renderQuestions demoParsed3

/-- The empty durable store with fresh id counters and no injected faults. -/
def dbEmpty : DbState :=
  { quizzes := [], submissions := [], userAnswers := []
    nextQuizId := 1, nextQuestionId := 1, nextSubmissionId := 1
    quizCreateFails := false, submissionCreateFails := false
    userAnswerCreateFails := false, submissionDeleteFails := false }

/-- The empty healthy cache. -/
def cacheEmpty : CacheState := { entries := [], getFails := false, setFails := false }

/-- The empty healthy world. -/
def st0 : SysState := { cache := cacheEmpty, db := dbEmpty }

/-- An environment whose openai call returns the five-block response. -/
def env0 : Env :=
  { availableModels := ["gpt-3.5-turbo"], redisCacheTTL := 3600, now := 0
    openaiResult := Except.ok sample5Text
    anthropicResult := Except.error "Anthropic API key not configured" }

/-- env0 with the three-block response instead. -/
def env3 : Env := { env0 with openaiResult := Except.ok sample3Text }

/-- env0 with an unparseable response. -/
def envBad : Env := { env0 with openaiResult := Except.ok "garbage text" }

/-- env0 at a given clock value. -/
def envAt (t : Int) : Env := { env0 with now := t }

/-- A stored question row fixture with the given ordinal and label. -/
def mkQ (i : Nat) (ca : String) : DbQuestion :=
  { id := i, questionText := "q" ++ toString i
    options := ⟨"oa", "ob", "oc", "od"⟩
    correctAnswer := ca, explanation := "e" ++ toString i, questionOrder := i }

/-- A stored quiz whose five correct labels are A, A, C, D, B and whose
expiry is at time 100. -/
def demoQuizRow : DbQuiz :=
  { id := 7, topic := "t", model := "gpt-3.5-turbo", userId := none
    createdAt := 0, expiresAt := 100, isAiGenerated := true
    cacheKey := "quiz:t:gpt-3.5-turbo"
    questions := [mkQ 1 "A", mkQ 2 "A", mkQ 3 "C", mkQ 4 "D", mkQ 5 "B"] }

/-- A store holding exactly the fixture quiz. -/
def dbWithQuiz : DbState := { dbEmpty with quizzes := [demoQuizRow] }

/-- The fixture store with both the answer write and the compensating
delete failing. -/
def dbFailBoth : DbState :=
  { dbWithQuiz with userAnswerCreateFails := true, submissionDeleteFails := true }

/-- The fixture store with only the answer write failing. -/
def dbFailUA : DbState := { dbWithQuiz with userAnswerCreateFails := true }

/-- A world whose cache rejects every write. -/
def stSetFail : SysState := { cache := { cacheEmpty with setFails := true }, db := dbEmpty }

/-- A world whose cache fails every read. -/
def stGetFail : SysState := { cache := { cacheEmpty with getFails := true }, db := dbEmpty }

/-- A quiz view sitting in the cache under the key of topic t and the
unrecognised model bogus-model. -/
def leakQuiz : FrontQuiz :=
  { id := "9", topic := "t", model := "bogus-model", questions := []
    createdAt := 0, expiresAt := 9 }

/-- A world whose cache holds leakQuiz under that key. -/
def stCached : SysState :=
  { cache := { entries := [(redisQuizKey (quizCacheKey "t" "bogus-model"), leakQuiz)]
               getFails := false, setFails := false }
    db := dbEmpty }

/-- Extract the value of a successful run, with a default. -/
def exceptValue (e : Except String FrontQuiz) (d : FrontQuiz) : FrontQuiz :=
  match e with
  | Except.ok q => q
  | Except.error _ => d

/-- A default quiz view for exceptValue. -/
def frontQuizDefault : FrontQuiz :=
  { id := "", topic := "", model := "", questions := [], createdAt := 0, expiresAt := 0 }

/-- The fresh-generation run used by several witnesses. -/
def genRun1 : Except String FrontQuiz × SysState :=
  generateQuiz env0 st0 "Photosynthesis " "gpt-3.5-turbo" none true

/-- The quiz view produced by genRun1. -/
def genRun1Quiz : FrontQuiz := exceptValue genRun1.1 frontQuizDefault

/-- The world after genRun1. -/
def genRun1St : SysState := genRun1.2

/-- Condition on what follows a scanned chunk: the next character (when
any) can neither extend a digit run nor close a marker. -/
def restOK : List Char → Prop
  | [] => True
  | c :: _ => c.isDigit = false ∧ c ≠ ':'

/-- No suffix of the chunk, continued by the given remainder, begins a
question marker: the splitter scans straight through the chunk. -/
def ScanClear : List Char → List Char → Prop
  | [], _ => True
  | c :: cs, rest => matchQMarker (c :: (cs ++ rest)) = none ∧ ScanClear cs rest

/-! ## Helper lemmas -/

set_option maxRecDepth 40000

theorem gradeAnswers_spec (ans : List String) :
    ∀ (qs : List DbQuestion) (idx : Nat), ans.length ≤ qs.length →
    ∃ rs, gradeAnswers ans qs idx = some rs ∧
      rs.map (fun r => r.isCorrect) = matchFlags ans qs ∧
      countCorrect rs = countMatches ans qs ∧
      rs.length = ans.length := by
  induction ans with
  | nil =>
    intro qs idx _
    exact ⟨[], rfl, by simp [matchFlags], by simp [countCorrect, countMatches, matchFlags], rfl⟩
  | cons a rest ih =>
    intro qs idx hlen
    cases qs with
    | nil => simp at hlen
    | cons q qs2 =>
      obtain ⟨rs2, heq, hmap, hcount, hl⟩ := ih qs2 (idx + 1) (by simpa using hlen)
      refine ⟨{ questionIndex := idx
                userAnswer := a
                correctAnswer := q.correctAnswer
                isCorrect := a == q.correctAnswer
                explanation := if q.explanation = "" then "No explanation available"
                  else q.explanation } :: rs2,
        by simp [gradeAnswers, heq], ?_, ?_, by simp [hl]⟩
      · simp [hmap, matchFlags]
      · simp only [countCorrect, countMatches, matchFlags] at hcount ⊢
        by_cases hcor : (a == q.correctAnswer) = true <;>
          simp [List.filter, List.count_cons, hcor, hcount]

theorem submitRoute_ok (env : Env) (db : DbState) (qid : Nat) (ans : List String)
    (uid : Option Nat) (quiz0 : DbQuiz)
    (hfind : dbFindQuiz db qid = some quiz0)
    (hexp : ¬ env.now > quiz0.expiresAt)
    (hown : ¬ (quiz0.userId.getD 0 ≠ 0 ∧ quiz0.userId ≠ uid))
    (hsub : db.submissionCreateFails = false)
    (hua : db.userAnswerCreateFails = false)
    (hlen : ans.length ≤ (sortedQuestions quiz0).length) :
    ∃ rs, gradeAnswers ans (sortedQuestions quiz0) 0 = some rs ∧
      countCorrect rs = countMatches ans (sortedQuestions quiz0) ∧
      rs.map (fun r => r.isCorrect) = matchFlags ans (sortedQuestions quiz0) ∧
      rs.length = ans.length ∧
      submitRoute env db (some qid) (some ans) uid =
      (Except.ok
        { quizId := qid
          score := countCorrect rs
          totalQuestions := (sortedQuestions quiz0).length
          percentage := mathRound100 (countCorrect rs) (sortedQuestions quiz0).length
          results := rs
          feedback := getFeedback (mathRound100 (countCorrect rs) (sortedQuestions quiz0).length) },
       { db with
           submissions := db.submissions ++
             [{ id := db.nextSubmissionId, quizId := qid, userId := uid
                score := countCorrect rs
                totalQuestions := (sortedQuestions quiz0).length
                percentage := mathRound100 (countCorrect rs) (sortedQuestions quiz0).length }]
           nextSubmissionId := db.nextSubmissionId + 1
           userAnswers := db.userAnswers ++
             buildUserAnswers db.nextSubmissionId ans (sortedQuestions quiz0) }) := by
  obtain ⟨rs, heq, hmap, hcount, hl⟩ := gradeAnswers_spec ans (sortedQuestions quiz0) 0 hlen
  refine ⟨rs, heq, hcount, hmap, hl, ?_⟩
  simp [submitRoute, hfind, hexp, hown, heq, hsub, hua]

/-! ## Claim theorems -/

/-- Claim C6: for every submit call on a quiz whose expiration time is
before the current time, the operation rejects with the expiry error and
leaves the store unchanged: no grading result is returned and zero
QuizSubmission and zero UserAnswer rows are written. -/
theorem claim_C6_expired_submit (env : Env) (db : DbState) (qid : Nat)
    (ans : List String) (uid : Option Nat) (quiz0 : DbQuiz)
    (hfind : dbFindQuiz db qid = some quiz0)
    (hexp : quiz0.expiresAt < env.now) :
    submitRoute env db (some qid) (some ans) uid =
      (Except.error (HttpError.badRequest "Quiz has expired"), db) := by
  simp [submitRoute, hfind, hexp]

/-- Witness for claim C6 at the fixture quiz (expiry 100, clock 200). -/
theorem claim_C6_expired_submit_witness :
    submitRoute (envAt 200) dbWithQuiz (some 7) (some ["A", "B", "C", "D", "A"]) none =
      (Except.error (HttpError.badRequest "Quiz has expired"), dbWithQuiz) :=
  claim_C6_expired_submit (envAt 200) dbWithQuiz 7 ["A", "B", "C", "D", "A"] none
    demoQuizRow (by rfl) (by decide)

/-- Claim C7: grading in the submit route compares, at each ordinal
position, the submitted label with the stored correct label, counts the
matches, and sets the percentage to the half-up rounding of
score / total * 100; in particular the fixture quiz with stored labels
A, A, C, D, B graded against A, B, C, D, A yields score 3 of 5,
percentage 60, and correctness flags true, false, true, true, false. -/
theorem claim_C7_grading :
    (∀ (env : Env) (db : DbState) (qid : Nat) (ans : List String)
       (uid : Option Nat) (quiz0 : DbQuiz),
      dbFindQuiz db qid = some quiz0 →
      ¬ env.now > quiz0.expiresAt →
      ¬ (quiz0.userId.getD 0 ≠ 0 ∧ quiz0.userId ≠ uid) →
      db.submissionCreateFails = false →
      db.userAnswerCreateFails = false →
      ans.length ≤ (sortedQuestions quiz0).length →
      ∃ r db2, submitRoute env db (some qid) (some ans) uid = (Except.ok r, db2) ∧
        r.score = countMatches ans (sortedQuestions quiz0) ∧
        r.results.map (fun a => a.isCorrect) = matchFlags ans (sortedQuestions quiz0) ∧
        r.totalQuestions = (sortedQuestions quiz0).length ∧
        r.percentage = mathRound100 r.score r.totalQuestions) ∧
    (submitRoute (envAt 50) dbWithQuiz (some 7) (some ["A", "B", "C", "D", "A"]) none).1.toOption.map
        (fun r => (r.score, r.totalQuestions, r.percentage, r.results.map (fun a => a.isCorrect))) =
      some (3, 5, 60, [true, false, true, true, false]) := by
  constructor
  · intro env db qid ans uid quiz0 hfind hexp hown hsub hua hlen
    obtain ⟨rs, _, hcount, hmap, _, hrun⟩ :=
      submitRoute_ok env db qid ans uid quiz0 hfind hexp hown hsub hua hlen
    exact ⟨_, _, hrun, hcount, hmap, rfl, rfl⟩
  · rfl

/-- Witness for claim C7: the universal part applied to the fixture quiz
and the fixture answers. -/
theorem claim_C7_grading_witness :
    ∃ r db2,
      submitRoute (envAt 50) dbWithQuiz (some 7) (some ["A", "B", "C", "D", "A"]) none =
        (Except.ok r, db2) ∧
      r.score = countMatches ["A", "B", "C", "D", "A"] (sortedQuestions demoQuizRow) ∧
      r.results.map (fun a => a.isCorrect) =
        matchFlags ["A", "B", "C", "D", "A"] (sortedQuestions demoQuizRow) ∧
      r.totalQuestions = (sortedQuestions demoQuizRow).length ∧
      r.percentage = mathRound100 r.score r.totalQuestions :=
  claim_C7_grading.1 (envAt 50) dbWithQuiz 7 ["A", "B", "C", "D", "A"] none demoQuizRow
    (by rfl) (by decide) (by simp [demoQuizRow]) (by rfl) (by rfl) (by decide)

/-- Claim C10 (implicit): the submit route does not require the answers
array to be as long as the question list: any strictly shorter answers
array (the empty one included) is accepted, only the provided positions
are graded, and the persisted QuizSubmission row records the full
question count as totalQuestions, so missing positions lower the score
and the percentage. -/
theorem claim_C10_short_answers (env : Env) (db : DbState) (qid : Nat)
    (ans : List String) (uid : Option Nat) (quiz0 : DbQuiz)
    (hfind : dbFindQuiz db qid = some quiz0)
    (hexp : ¬ env.now > quiz0.expiresAt)
    (hown : ¬ (quiz0.userId.getD 0 ≠ 0 ∧ quiz0.userId ≠ uid))
    (hsub : db.submissionCreateFails = false)
    (hua : db.userAnswerCreateFails = false)
    (hlen : ans.length < (sortedQuestions quiz0).length) :
    ∃ r db2, submitRoute env db (some qid) (some ans) uid = (Except.ok r, db2) ∧
      r.totalQuestions = (sortedQuestions quiz0).length ∧
      r.results.length = ans.length ∧
      r.score = countMatches ans (sortedQuestions quiz0) ∧
      r.percentage = mathRound100 r.score ((sortedQuestions quiz0).length) ∧
      db2.submissions = db.submissions ++
        [{ id := db.nextSubmissionId, quizId := qid, userId := uid
           score := r.score
           totalQuestions := (sortedQuestions quiz0).length
           percentage := r.percentage }] := by
  obtain ⟨rs, _, hcount, _, hl, hrun⟩ :=
    submitRoute_ok env db qid ans uid quiz0 hfind hexp hown hsub hua (Nat.le_of_lt hlen)
  exact ⟨_, _, hrun, rfl, hl, hcount, rfl, rfl⟩

/-- Witness for claim C10: the empty answers array against the
five-question fixture quiz. -/
theorem claim_C10_short_answers_witness :
    ∃ r db2, submitRoute (envAt 50) dbWithQuiz (some 7) (some []) none = (Except.ok r, db2) ∧
      r.totalQuestions = (sortedQuestions demoQuizRow).length ∧
      r.results.length = List.length ([] : List String) ∧
      r.score = countMatches [] (sortedQuestions demoQuizRow) ∧
      r.percentage = mathRound100 r.score ((sortedQuestions demoQuizRow).length) ∧
      db2.submissions = dbWithQuiz.submissions ++
        [{ id := dbWithQuiz.nextSubmissionId, quizId := 7, userId := none
           score := r.score
           totalQuestions := (sortedQuestions demoQuizRow).length
           percentage := r.percentage }] :=
  claim_C10_short_answers (envAt 50) dbWithQuiz 7 [] none demoQuizRow
    (by rfl) (by decide) (by simp [demoQuizRow]) (by rfl) (by rfl) (by decide)

/-- Claim C2, counterexample: with the UserAnswer batch write and the
compensating delete both failing, the submit call reports failure and yet
leaves a QuizSubmission row with no UserAnswer rows in the store, so the
claimed rollback guarantee does not hold of every failing submit call. -/
theorem claim_C2_counterexample :
    (submitRoute (envAt 50) dbFailBoth (some 7) (some ["A", "A", "A", "A", "A"]) none).1.isOk = false ∧
    (submitRoute (envAt 50) dbFailBoth (some 7) (some ["A", "A", "A", "A", "A"]) none).2.submissions.map
      (fun s => (s.id, s.totalQuestions)) = [(1, 5)] ∧
    (submitRoute (envAt 50) dbFailBoth (some 7) (some ["A", "A", "A", "A", "A"]) none).2.userAnswers = [] :=
  ⟨rfl, rfl, rfl⟩

/-- Claim C2 as amended: when the UserAnswer batch write fails after the
QuizSubmission write succeeded, the handler attempts to delete the
QuizSubmission before surfacing the failure; whenever that compensating
delete itself succeeds, the store afterwards holds no new QuizSubmission
row and no UserAnswer rows (the cleanup delete failing too is the one
path on which the orphan survives, per the counterexample). -/
theorem claim_C2_rollback (env : Env) (db : DbState) (qid : Nat)
    (ans : List String) (uid : Option Nat) (quiz0 : DbQuiz)
    (hfind : dbFindQuiz db qid = some quiz0)
    (hexp : ¬ env.now > quiz0.expiresAt)
    (hown : ¬ (quiz0.userId.getD 0 ≠ 0 ∧ quiz0.userId ≠ uid))
    (hlen : ans.length ≤ (sortedQuestions quiz0).length)
    (hsub : db.submissionCreateFails = false)
    (hua : db.userAnswerCreateFails = true)
    (hdel : db.submissionDeleteFails = false)
    (hfresh : ∀ s ∈ db.submissions, s.id ≠ db.nextSubmissionId) :
    ∃ db2, submitRoute env db (some qid) (some ans) uid =
        (Except.error (HttpError.internal "Failed to process quiz submission. Please try again."), db2) ∧
      db2.submissions = db.submissions ∧
      db2.userAnswers = db.userAnswers := by
  obtain ⟨rs, heq, _, _, _⟩ := gradeAnswers_spec ans (sortedQuestions quiz0) 0 hlen
  have h1 : (submitRoute env db (some qid) (some ans) uid).1 =
      Except.error (HttpError.internal "Failed to process quiz submission. Please try again.") := by
    simp [submitRoute, hfind, hexp, hown, heq, hsub, hua, hdel]
  have h2 : (submitRoute env db (some qid) (some ans) uid).2.submissions = db.submissions := by
    simp only [submitRoute, hfind, hexp, hown, heq, hsub, hua, hdel]
    simp [List.filter_append]
    exact fun a ha => hfresh a ha
  have h3 : (submitRoute env db (some qid) (some ans) uid).2.userAnswers = db.userAnswers := by
    simp [submitRoute, hfind, hexp, hown, heq, hsub, hua, hdel]
  exact ⟨(submitRoute env db (some qid) (some ans) uid).2, by rw [← h1], h2, h3⟩

/-- Witness for claim C2: the fixture store in which only the answer
batch write fails; afterwards no submission row and no answer rows. -/
theorem claim_C2_rollback_witness :
    ∃ db2, submitRoute (envAt 50) dbFailUA (some 7) (some ["A", "A", "A", "A", "A"]) none =
        (Except.error (HttpError.internal "Failed to process quiz submission. Please try again."), db2) ∧
      db2.submissions = dbFailUA.submissions ∧
      db2.userAnswers = dbFailUA.userAnswers :=
  claim_C2_rollback (envAt 50) dbFailUA 7 ["A", "A", "A", "A", "A"] none demoQuizRow
    (by rfl) (by decide) (by simp [dbFailUA, dbWithQuiz, demoQuizRow]) (by decide)
    (by rfl) (by rfl) (by rfl) (by intro s hs; simp [dbFailUA, dbWithQuiz, dbEmpty] at hs)

theorem parse_ok_length (s : String) (l : List ParsedQuestion)
    (h : parseAIResponse s = Except.ok l) : 1 ≤ l.length ∧ l.length ≤ 5 := by
  simp only [parseAIResponse] at h
  split at h
  · cases h
  · rename_i hq
    cases h
    constructor
    · simp only [List.length_take]
      omega
    · simp [List.length_take]

theorem assignQuestionRows_length (qs : List ParsedQuestion) :
    ∀ f i, (assignQuestionRows f qs i).length = qs.length := by
  induction qs with
  | nil => intro f i; rfl
  | cons q rest ih => intro f i; simp [assignQuestionRows, ih]

/-- Claim C4, counterexample: from the three-block provider response,
generateQuiz succeeds and both returns and persists a quiz with only
three questions, so fewer than five parsed questions is not treated as a
generation failure. -/
theorem claim_C4_counterexample :
    (generateQuiz env3 st0 "t" "gpt-3.5-turbo" none true).1.toOption.map
      (fun q => q.questions.length) = some 3 ∧
    (generateQuiz env3 st0 "t" "gpt-3.5-turbo" none true).2.db.quizzes.map
      (fun z => z.questions.length) = [3] :=
  ⟨rfl, rfl⟩

/-- Claim C4 as amended: generateQuiz treats a provider response as a
generation failure, persisting nothing, exactly when zero valid questions
can be parsed from it; whenever between one and five valid questions
parse, a quiz with exactly that many questions is assembled, stored and
returned, so partial quizzes with fewer than five questions are
delivered. -/
theorem claim_C4_zero_only (env : Env) (st : SysState) (topic model : String)
    (uid : Option Nat) (r : String)
    (hm : env.availableModels.contains model = true)
    (hp : callProvider env model = Except.ok r)
    (hr : r ≠ "")
    (hdb : st.db.quizCreateFails = false)
    (hcset : st.cache.setFails = false) :
    (∀ e, parseAIResponse r = Except.error e →
      generateQuiz env st topic model uid true =
        (Except.error ("Failed to generate quiz: " ++ e), st)) ∧
    (∀ qs, parseAIResponse r = Except.ok qs →
      ∃ fq st2, generateQuiz env st topic model uid true = (Except.ok fq, st2) ∧
        fq.questions.length = qs.length ∧
        st2.db.quizzes.map (fun z => z.questions.length) =
          st.db.quizzes.map (fun z => z.questions.length) ++ [qs.length]) := by
  have hm2 : model ∈ env.availableModels := by simpa using hm
  constructor
  · intro e he
    simp [generateQuiz, generateQuizCore, generateFresh, hm2, hp, hr, he]
  · intro qs hq
    have hlen := parse_ok_length r qs hq
    have hne : ¬ qs.length = 0 := by omega
    refine ⟨(generateQuiz env st topic model uid true).1.toOption.getD frontQuizDefault,
      (generateQuiz env st topic model uid true).2, ?_, ?_, ?_⟩ <;>
      simp [generateQuiz, generateQuizCore, generateFresh, createQuizInDatabase,
        redisSetQuizCache, redisSet, hm2, hp, hr, hq, hne, hdb, hcset,
        assignQuestionRows_length, Except.toOption, Option.getD]

/-- Witness for claim C4: the three-block fixture response yields a
stored and returned three-question quiz. -/
theorem claim_C4_zero_only_witness :
    ∃ fq st2, generateQuiz env3 st0 "t" "gpt-3.5-turbo" none true = (Except.ok fq, st2) ∧
      fq.questions.length = demoParsed3.length ∧
      st2.db.quizzes.map (fun z => z.questions.length) =
        st0.db.quizzes.map (fun z => z.questions.length) ++ [demoParsed3.length] :=
  (claim_C4_zero_only env3 st0 "t" "gpt-3.5-turbo" none sample3Text
    (by rfl) (by rfl) (by decide) (by rfl) (by rfl)).2 demoParsed3 (by rfl)

theorem generateFresh_ok (env : Env) (st : SysState) (topic model : String)
    (uid : Option Nat) (ck r : String) (qs : List ParsedQuestion)
    (hm2 : model ∈ env.availableModels)
    (hp : callProvider env model = Except.ok r)
    (hr : r ≠ "")
    (hq : parseAIResponse r = Except.ok qs)
    (hdb : st.db.quizCreateFails = false)
    (hcset : st.cache.setFails = false) :
    ∃ fq st2, generateFresh env st topic model uid ck = (Except.ok fq, st2) ∧
      st2.db.quizzes.length = st.db.quizzes.length + 1 := by
  have hne : ¬ qs.length = 0 := by have := parse_ok_length r qs hq; omega
  refine ⟨(generateFresh env st topic model uid ck).1.toOption.getD frontQuizDefault,
    (generateFresh env st topic model uid ck).2, ?_, ?_⟩ <;>
    simp [generateFresh, createQuizInDatabase, redisSetQuizCache, redisSet,
      hm2, hp, hr, hq, hne, hdb, hcset, Except.toOption, Option.getD]

/-- Claim C5, counterexample: an execution in which only the cache layer
errors (its set call fails; reads, the durable store and the provider are
healthy) and generateQuiz nevertheless fails, because RedisService.set
rethrows and generateQuiz awaits the cache write on its critical path. -/
theorem claim_C5_counterexample :
    stSetFail.cache.setFails = true ∧
    stSetFail.cache.getFails = false ∧
    stSetFail.db.quizCreateFails = false ∧
    env0.openaiResult = Except.ok sample5Text ∧
    (generateQuiz env0 stSetFail "t" "gpt-3.5-turbo" none true).1 =
      Except.error "Failed to generate quiz: Redis set error" :=
  ⟨rfl, rfl, rfl, rfl, rfl⟩

/-- Claim C5 as amended: a cache read failure never fails generateQuiz
(the failed probe behaves as a miss and the call still returns a quiz),
but a cache write failure propagates: generateQuiz then reports failure
even though the fresh quiz was already persisted to the durable store. -/
theorem claim_C5_cache_faults :
    (∀ (env : Env) (st : SysState) (topic model : String) (uid : Option Nat)
       (r : String) (qs : List ParsedQuestion),
      st.cache.getFails = true →
      st.cache.setFails = false →
      env.availableModels.contains model = true →
      callProvider env model = Except.ok r →
      r ≠ "" →
      parseAIResponse r = Except.ok qs →
      st.db.quizCreateFails = false →
      ∃ fq st2, generateQuiz env st topic model uid false = (Except.ok fq, st2)) ∧
    (∀ (env : Env) (st : SysState) (topic model : String) (uid : Option Nat)
       (r : String) (qs : List ParsedQuestion),
      st.cache.setFails = true →
      env.availableModels.contains model = true →
      callProvider env model = Except.ok r →
      r ≠ "" →
      parseAIResponse r = Except.ok qs →
      st.db.quizCreateFails = false →
      ∃ e st2, generateQuiz env st topic model uid true = (Except.error e, st2) ∧
        st2.db.quizzes.length = st.db.quizzes.length + 1) := by
  constructor
  · intro env st topic model uid r qs hget hcset hm hp hr hq hdb
    have hm2 : model ∈ env.availableModels := by simpa using hm
    have hcore : ∃ fq st2,
        generateQuizCore env st topic model uid false = (Except.ok fq, st2) := by
      refine ⟨(generateQuizCore env st topic model uid false).1.toOption.getD frontQuizDefault,
        (generateQuizCore env st topic model uid false).2, ?_⟩
      cases hh : (dbFindRecentQuizzes st.db (jsTrim topic) model).head? with
      | none =>
        obtain ⟨fq, st2, hfr, _⟩ :=
          generateFresh_ok env st topic model uid (quizCacheKey topic model) r qs
            hm2 hp hr hq hdb hcset
        simp [generateQuizCore, redisGetQuizCache, redisGet, hget, hh, hfr,
          Except.toOption, Option.getD]
      | some recent =>
        by_cases hrec : recent.createdAt > env.now - 86400000
        · simp [generateQuizCore, redisGetQuizCache, redisGet, hget, hh, hrec,
            redisSetQuizCache, redisSet, hcset, Except.toOption, Option.getD]
        · obtain ⟨fq, st2, hfr, _⟩ :=
            generateFresh_ok env st topic model uid (quizCacheKey topic model) r qs
              hm2 hp hr hq hdb hcset
          simp [generateQuizCore, redisGetQuizCache, redisGet, hget, hh, hrec, hfr,
            Except.toOption, Option.getD]
    obtain ⟨fq, st2, hcore⟩ := hcore
    exact ⟨fq, st2, by simp [generateQuiz, hcore]⟩
  · intro env st topic model uid r qs hcset hm hp hr hq hdb
    have hm2 : model ∈ env.availableModels := by simpa using hm
    have hne : ¬ qs.length = 0 := by have := parse_ok_length r qs hq; omega
    refine ⟨"Failed to generate quiz: Redis set error",
      (generateQuiz env st topic model uid true).2, ?_, ?_⟩ <;>
      simp [generateQuiz, generateQuizCore, generateFresh, createQuizInDatabase,
        redisSetQuizCache, redisSet, hm2, hp, hr, hq, hne, hdb, hcset]

/-- Witness for claim C5: the read-failing cache still yields a quiz; the
write-failing cache fails the call after persisting the quiz. -/
theorem claim_C5_cache_faults_witness :
    (∃ fq st2, generateQuiz env0 stGetFail "t" "gpt-3.5-turbo" none false =
      (Except.ok fq, st2)) ∧
    (∃ e st2, generateQuiz env0 stSetFail "t" "gpt-3.5-turbo" none true =
        (Except.error e, st2) ∧
      st2.db.quizzes.length = stSetFail.db.quizzes.length + 1) :=
  ⟨claim_C5_cache_faults.1 env0 stGetFail "t" "gpt-3.5-turbo" none sample5Text demoParsed5
      (by rfl) (by rfl) (by rfl) (by rfl) (by decide) (by rfl) (by rfl),
   claim_C5_cache_faults.2 env0 stSetFail "t" "gpt-3.5-turbo" none sample5Text demoParsed5
      (by rfl) (by rfl) (by rfl) (by decide) (by rfl) (by rfl)⟩

/-- Claim C8, counterexample: with bogus-model not among the recognised
models, generateQuiz still probes the cache and returns the cached quiz
under the derived key, with no validation error, so the request is not
rejected before any I/O. -/
theorem claim_C8_counterexample :
    env0.availableModels.contains "bogus-model" = false ∧
    generateQuiz env0 stCached "t" "bogus-model" none false =
      (Except.ok leakQuiz, stCached) :=
  ⟨rfl, rfl⟩

/-- Claim C8 as amended: the model is validated only at the generation
stage.  With forceNew unset the cache probe comes first and a hit is
returned whatever the model string; once generation is reached, an
unrecognised model is rejected with a validation error before any
provider invocation (the result does not depend on the provider
outcomes) and with the world unchanged. -/
theorem claim_C8_model_validation :
    (∀ (env : Env) (st : SysState) (topic model : String) (uid : Option Nat)
       (q : FrontQuiz),
      st.cache.getFails = false →
      cacheLookup (redisQuizKey (quizCacheKey topic model)) st.cache.entries = some q →
      generateQuiz env st topic model uid false = (Except.ok q, st)) ∧
    (∀ (env : Env) (st : SysState) (topic model : String) (uid : Option Nat),
      env.availableModels.contains model = false →
      generateQuiz env st topic model uid true =
        (Except.error ("Failed to generate quiz: " ++ ("Invalid model: " ++ model ++
          ". Available models: " ++ String.intercalate ", " env.availableModels)), st)) := by
  constructor
  · intro env st topic model uid q hget hhit
    simp [generateQuiz, generateQuizCore, redisGetQuizCache, redisGet, hget, hhit]
  · intro env st topic model uid hm
    have hm2 : ¬ model ∈ env.availableModels := by simpa using hm
    simp [generateQuiz, generateQuizCore, generateFresh, hm2]

/-- Witness for claim C8: the cached fixture is served for bogus-model,
and with an empty cache the same model is rejected before generation. -/
theorem claim_C8_model_validation_witness :
    generateQuiz env0 stCached "t" "bogus-model" none false = (Except.ok leakQuiz, stCached) ∧
    generateQuiz env0 st0 "t" "bogus-model" none true =
      (Except.error ("Failed to generate quiz: " ++ ("Invalid model: " ++ "bogus-model" ++
        ". Available models: " ++ String.intercalate ", " env0.availableModels)), st0) :=
  ⟨claim_C8_model_validation.1 env0 stCached "t" "bogus-model" none leakQuiz (by rfl) (by rfl),
   claim_C8_model_validation.2 env0 st0 "t" "bogus-model" none (by rfl)⟩

theorem cacheLookup_insert (k : String) (v : FrontQuiz) :
    ∀ l, cacheLookup k (cacheInsert k v l) = some v := by
  intro l
  induction l with
  | nil => simp [cacheInsert, cacheLookup]
  | cons e rest ih =>
    obtain ⟨k2, v2⟩ := e
    by_cases hk : k2 = k <;> simp [cacheInsert, cacheLookup, hk, ih]

theorem generateFresh_ok_state (env : Env) (st : SysState) (topic model : String)
    (uid : Option Nat) (ck : String) (q : FrontQuiz) (st2 : SysState)
    (h : generateFresh env st topic model uid ck = (Except.ok q, st2)) :
    st2.cache = { st.cache with
      entries := cacheInsert (redisQuizKey ck) q st.cache.entries } := by
  by_cases hm : (env.availableModels.contains model) = false
  · have hm3 : ¬ model ∈ env.availableModels := by simpa using hm
    simp [generateFresh, hm3] at h
  · have hm2 : model ∈ env.availableModels := by
      cases hb : env.availableModels.contains model
      · exact absurd hb hm
      · simpa using hb
    rcases hp : callProvider env model with e | r
    · simp [generateFresh, hm2, hp] at h
    · by_cases hr : r = ""
      · simp [generateFresh, hm2, hp, hr] at h
      · rcases hq : parseAIResponse r with e | qs
        · simp [generateFresh, hm2, hp, hr, hq] at h
        · by_cases hn : qs.length = 0
          · simp [generateFresh, hm2, hp, hr, hq, hn] at h
          · rcases hcr : createQuizInDatabase st.db topic model qs uid env.now with e | pair
            · simp [generateFresh, hm2, hp, hr, hq, hn, hcr] at h
            · obtain ⟨fq, db2⟩ := pair
              by_cases hsf : st.cache.setFails
              · simp [generateFresh, hm2, hp, hr, hq, hn, hcr,
                  redisSetQuizCache, redisSet, hsf] at h
              · have hsf2 : st.cache.setFails = false := by simpa using hsf
                simp [generateFresh, hm2, hp, hr, hq, hn, hcr,
                  redisSetQuizCache, redisSet, hsf2] at h
                obtain ⟨h1, h2⟩ := h
                subst h1
                subst h2
                simp [hsf2]

theorem generateQuiz_forceNew_ok (env : Env) (st : SysState) (topic model : String)
    (uid : Option Nat) (q : FrontQuiz) (st2 : SysState)
    (h : generateQuiz env st topic model uid true = (Except.ok q, st2)) :
    generateFresh env st topic model uid (quizCacheKey topic model) = (Except.ok q, st2) := by
  rcases hc : generateFresh env st topic model uid (quizCacheKey topic model) with ⟨r, s⟩
  cases r with
  | error e => simp [generateQuiz, generateQuizCore, hc] at h
  | ok fq =>
    have hrun : generateQuiz env st topic model uid true = (Except.ok fq, s) := by
      simp [generateQuiz, generateQuizCore, hc]
    rw [hrun] at h
    obtain ⟨h1, h2⟩ := Prod.mk.injEq .. ▸ h
    cases h1
    cases h2
    rfl

/-- Claim C9: cache key derivation is deterministic and insensitive to
topic case and edge whitespace — the fixture pair derives the same key
for every model — and the key probed on a later call equals the key a
fresh generation stored under: after a successful forced generation for
one spelling of the topic, a lookup call with any equally-normalising
spelling and a healthy cache returns that very quiz from the cache,
leaving the world unchanged. -/
theorem claim_C9_cache_key :
    (∀ m : String, quizCacheKey "Photosynthesis " m = quizCacheKey "photosynthesis" m) ∧
    (∀ (env : Env) (st : SysState) (t1 t2 model : String) (uid : Option Nat)
       (q : FrontQuiz) (st2 : SysState),
      jsLowerTrim t1 = jsLowerTrim t2 →
      st.cache.getFails = false →
      generateQuiz env st t1 model uid true = (Except.ok q, st2) →
      generateQuiz env st2 t2 model uid false = (Except.ok q, st2)) := by
  constructor
  · intro m
    rfl
  · intro env st t1 t2 model uid q st2 hlt hget h
    have hfr := generateQuiz_forceNew_ok env st t1 model uid q st2 h
    have hc2 := generateFresh_ok_state env st t1 model uid (quizCacheKey t1 model) q st2 hfr
    have hkey : quizCacheKey t2 model = quizCacheKey t1 model := by
      unfold quizCacheKey
      rw [hlt]
    have hget2 : redisGetQuizCache st2.cache (quizCacheKey t2 model) = some q := by
      rw [hkey]
      simp [redisGetQuizCache, redisGet, hc2, hget, cacheLookup_insert]
    simp [generateQuiz, generateQuizCore, hget2]

/-- Witness for claim C9: generating for the spelling with a capital and
a trailing space, then looking up the lowercase spelling, returns the
generated quiz from the cache. -/
theorem claim_C9_cache_key_witness :
    generateQuiz env0 genRun1St "photosynthesis" "gpt-3.5-turbo" none false =
      (Except.ok genRun1Quiz, genRun1St) :=
  claim_C9_cache_key.2 env0 st0 "Photosynthesis " "photosynthesis" "gpt-3.5-turbo" none
    genRun1Quiz genRun1St (by rfl) (by rfl) (by rfl)

theorem cacheLookup_mem (k : String) (v : FrontQuiz) :
    ∀ l, cacheLookup k l = some v → (k, v) ∈ l := by
  intro l
  induction l with
  | nil => intro h; cases h
  | cons e rest ih =>
    obtain ⟨k2, v2⟩ := e
    intro h
    by_cases hk : k2 = k
    · simp [cacheLookup, hk] at h
      simp [hk, h]
    · simp [cacheLookup, hk] at h
      exact List.mem_cons_of_mem _ (ih h)

theorem cacheInsert_mem (k : String) (v : FrontQuiz) :
    ∀ l e, e ∈ cacheInsert k v l → e = (k, v) ∨ e ∈ l := by
  intro l
  induction l with
  | nil => intro e he; simpa [cacheInsert] using he
  | cons e2 rest ih =>
    obtain ⟨k2, v2⟩ := e2
    intro e he
    by_cases hk : k2 = k
    · simp [cacheInsert, hk] at he
      rcases he with he | he
      · exact Or.inl he
      · exact Or.inr (List.mem_cons_of_mem _ he)
    · simp [cacheInsert, hk] at he
      rcases he with he | he
      · exact Or.inr (by simp [he])
      · rcases ih e he with h | h
        · exact Or.inl h
        · exact Or.inr (List.mem_cons_of_mem _ h)

theorem sanitized_toFrontendQuiz (z : DbQuiz) : sanitizedQuiz (toFrontendQuiz z) := by
  intro q hq
  simp [toFrontendQuiz] at hq
  obtain ⟨r, _, hr⟩ := hq
  exact ⟨by simp [← hr], by simp [← hr]⟩

theorem sanitized_create (db : DbState) (topic model : String)
    (qs : List ParsedQuestion) (uid : Option Nat) (now : Int)
    (fq : FrontQuiz) (db2 : DbState)
    (h : createQuizInDatabase db topic model qs uid now = Except.ok (fq, db2)) :
    sanitizedQuiz fq := by
  unfold createQuizInDatabase at h
  split at h
  · cases h
  · simp only [Except.ok.injEq, Prod.mk.injEq] at h
    obtain ⟨h1, h2⟩ := h
    subst h1
    intro q hq
    simp at hq
    obtain ⟨r, _, hr⟩ := hq
    exact ⟨by simp [← hr], by simp [← hr]⟩

theorem redisGet_sanitized (c : CacheState) (k : String) (q : FrontQuiz)
    (hc : cacheSanitized c) (h : redisGet c k = some q) : sanitizedQuiz q := by
  unfold redisGet at h
  split at h
  · cases h
  · exact hc _ (cacheLookup_mem k q c.entries h)

theorem redisSet_ok_sanitized (c : CacheState) (k : String) (v : FrontQuiz)
    (c2 : CacheState) (hset : redisSet c k v = Except.ok c2)
    (hc : cacheSanitized c) (hv : sanitizedQuiz v) : cacheSanitized c2 := by
  unfold redisSet at hset
  split at hset
  · cases hset
  · simp only [Except.ok.injEq] at hset
    subst hset
    intro e he
    rcases cacheInsert_mem k v c.entries e he with h | h
    · subst h
      exact hv
    · exact hc _ h

theorem generateFresh_sanitized (env : Env) (st : SysState) (topic model : String)
    (uid : Option Nat) (ck : String) (hc : cacheSanitized st.cache) :
    cacheSanitized (generateFresh env st topic model uid ck).2.cache ∧
    (∀ q, (generateFresh env st topic model uid ck).1 = Except.ok q → sanitizedQuiz q) := by
  by_cases hm : (env.availableModels.contains model) = false
  · have hm3 : ¬ model ∈ env.availableModels := by simpa using hm
    simp [generateFresh, hm3, hc]
  · have hm2 : model ∈ env.availableModels := by
      cases hb : env.availableModels.contains model
      · exact absurd hb hm
      · simpa using hb
    rcases hp : callProvider env model with e | r
    · simp [generateFresh, hm2, hp, hc]
    · by_cases hr : r = ""
      · simp [generateFresh, hm2, hp, hr, hc]
      · rcases hq : parseAIResponse r with e | qs
        · simp [generateFresh, hm2, hp, hr, hq, hc]
        · by_cases hn : qs.length = 0
          · simp [generateFresh, hm2, hp, hr, hq, hn, hc]
          · rcases hcr : createQuizInDatabase st.db topic model qs uid env.now with e | pair
            · simp [generateFresh, hm2, hp, hr, hq, hn, hcr, hc]
            · obtain ⟨fq, db2⟩ := pair
              have hfq : sanitizedQuiz fq :=
                sanitized_create st.db topic model qs uid env.now fq db2 hcr
              rcases hset : redisSetQuizCache st.cache ck fq with e | c2
              · simp [generateFresh, hm2, hp, hr, hq, hn, hcr, hset, hc]
              · have hc2 : cacheSanitized c2 :=
                  redisSet_ok_sanitized st.cache (redisQuizKey ck) fq c2 hset hc hfq
                simp [generateFresh, hm2, hp, hr, hq, hn, hcr, hset, hc2]
                exact hfq

theorem generateQuizCore_sanitized (env : Env) (st : SysState) (topic model : String)
    (uid : Option Nat) (fN : Bool) (hc : cacheSanitized st.cache) :
    cacheSanitized (generateQuizCore env st topic model uid fN).2.cache ∧
    (∀ q, (generateQuizCore env st topic model uid fN).1 = Except.ok q → sanitizedQuiz q) := by
  cases fN with
  | true =>
    have h := generateFresh_sanitized env st topic model uid (quizCacheKey topic model) hc
    simpa [generateQuizCore] using h
  | false =>
    rcases hcg : redisGetQuizCache st.cache (quizCacheKey topic model) with _ | cached
    · rcases hh : (dbFindRecentQuizzes st.db (jsTrim topic) model).head? with _ | recent
      · have h := generateFresh_sanitized env st topic model uid (quizCacheKey topic model) hc
        simpa [generateQuizCore, hcg, hh] using h
      · by_cases hrec : recent.createdAt > env.now - 86400000
        · rcases hset : redisSetQuizCache st.cache (quizCacheKey topic model)
            (toFrontendQuiz recent) with e | c2
          · simp [generateQuizCore, hcg, hh, hrec, hset, hc]
          · have hc2 : cacheSanitized c2 :=
              redisSet_ok_sanitized st.cache (redisQuizKey (quizCacheKey topic model))
                (toFrontendQuiz recent) c2 hset hc (sanitized_toFrontendQuiz recent)
          
            simp [generateQuizCore, hcg, hh, hrec, hset, hc2]
            exact sanitized_toFrontendQuiz recent
        · have h := generateFresh_sanitized env st topic model uid (quizCacheKey topic model) hc
          simpa [generateQuizCore, hcg, hh, hrec] using h
    · have hs : sanitizedQuiz cached := redisGet_sanitized st.cache
        (redisQuizKey (quizCacheKey topic model)) cached hc hcg
      simp [generateQuizCore, hcg, hc]
      exact hs

/-- Claim C1: every quiz view returned by generateQuiz (cache hit,
database reuse or fresh generation) and by the quiz-retrieval route is
sanitised: each question carries only its id, text and options, the
correctAnswer and explanation keys are absent in every code path, for any
parser output; moreover every cache state generateQuiz leaves behind
again holds only sanitised views, so the invariant assumed of the cache
is maintained by the system itself. -/
theorem claim_C1_sanitized_views (env : Env) (st : SysState) (topic model : String)
    (uid : Option Nat) (fN : Bool) (hc : cacheSanitized st.cache) :
    (∀ r st2, generateQuiz env st topic model uid fN = (r, st2) →
      cacheSanitized st2.cache ∧ ∀ q, r = Except.ok q → sanitizedQuiz q) ∧
    (∀ qid uid2 q, getQuizRoute st.db qid uid2 = Except.ok q → sanitizedQuiz q) := by
  constructor
  · intro r st2 h
    have hcore := generateQuizCore_sanitized env st topic model uid fN hc
    rcases hrun : generateQuizCore env st topic model uid fN with ⟨rc, sc⟩
    rw [hrun] at hcore
    cases rc with
    | error e =>
      have : generateQuiz env st topic model uid fN = (Except.error ("Failed to generate quiz: " ++ e), sc) := by
        simp [generateQuiz, hrun]
      rw [this] at h
      obtain ⟨h1, h2⟩ := Prod.mk.injEq .. ▸ h
      subst h2
      subst h1
      exact ⟨hcore.1, by intro q hq; cases hq⟩
    | ok fq =>
      have : generateQuiz env st topic model uid fN = (Except.ok fq, sc) := by
        simp [generateQuiz, hrun]
      rw [this] at h
      obtain ⟨h1, h2⟩ := Prod.mk.injEq .. ▸ h
      subst h2
      subst h1
      refine ⟨hcore.1, ?_⟩
      intro q hq
      cases hq
      exact hcore.2 fq rfl
  · intro qid uid2 q h
    unfold getQuizRoute at h
    split at h
    · cases h
    · split at h
      · cases h
      · simp only [Except.ok.injEq] at h
        subst h
        intro q2 hq2
        simp at hq2
        obtain ⟨r, _, hr⟩ := hq2
        exact ⟨by simp [← hr], by simp [← hr]⟩

/-- Witness for claim C1: starting from the empty (hence sanitised)
cache, the fresh-generation run returns a sanitised quiz. -/
theorem claim_C1_sanitized_views_witness : sanitizedQuiz genRun1Quiz :=
  ((claim_C1_sanitized_views env0 st0 "Photosynthesis " "gpt-3.5-turbo" none true
      (by intro e he; cases he)).1
    genRun1.1 genRun1.2 rfl).2 genRun1Quiz (by rfl)

theorem dropWhile_length_le (p : Char → Bool) :
    ∀ l : List Char, (l.dropWhile p).length ≤ l.length := by
  intro l
  induction l with
  | nil => simp
  | cons c cs ih =>
    by_cases hc : p c = true <;> simp [List.dropWhile_cons, hc] <;> omega

theorem matchQMarker_lt (l tail : List Char) (h : matchQMarker l = some tail) :
    tail.length < l.length := by
  unfold matchQMarker at h
  split at h
  · rename_i rest
    split at h
    · rename_i tail2 hdrop
      split at h
      · cases h
      · simp only [Option.some.injEq] at h
        subst h
        have h1 : (rest.dropWhile Char.isDigit).length ≤ rest.length :=
          dropWhile_length_le Char.isDigit rest
        rw [hdrop] at h1
        simp at h1 ⊢
        omega
    · cases h
  · cases h

theorem splitQAux_congr : ∀ (f1 : Nat) (l acc : List Char) (f2 : Nat),
    l.length < f1 → l.length < f2 → splitQAux f1 l acc = splitQAux f2 l acc := by
  intro f1
  induction f1 with
  | zero => intro l acc f2 h1 _; omega
  | succ f ih =>
    intro l acc f2 h1 h2
    cases f2 with
    | zero => omega
    | succ g =>
      cases l with
      | nil => rfl
      | cons c cs =>
        cases hm : matchQMarker (c :: cs) with
        | some tail =>
          have hlt := matchQMarker_lt (c :: cs) tail hm
          simp only [splitQAux, hm]
          rw [ih tail [] g (by simp at hlt h1 ⊢; omega) (by simp at hlt h2 ⊢; omega)]
        | none =>
          simp only [splitQAux, hm]
          exact ih cs (c :: acc) g (by simp at h1 ⊢; omega) (by simp at h2 ⊢; omega)

theorem matchQMarker_ne_Q (c : Char) (xs : List Char) (hc : c ≠ 'Q') :
    matchQMarker (c :: xs) = none := by
  unfold matchQMarker
  split
  · rename_i rest heq
    rw [List.cons.injEq] at heq
    exact absurd heq.1 hc
  · rfl

theorem matchQMarker_marker (d : Char) (hd : d.isDigit = true) (tail : List Char) :
    matchQMarker ('Q' :: d :: ':' :: tail) = some tail := by
  have hcolon : (':' : Char).isDigit = false := by decide
  simp [matchQMarker, List.dropWhile, List.takeWhile, hd, hcolon]

theorem ordChar_digit (i : Nat) : (ordChar i).isDigit = true := by
  unfold ordChar
  match i with
  | 0 => decide
  | 1 => decide
  | 2 => decide
  | 3 => decide
  | 4 => decide
  | n + 5 =>
    rw [List.getD_eq_default]
    · decide
    · simp

theorem matchQMarker_eq (ys : List Char) :
    matchQMarker ('Q' :: ys) =
      match ys.dropWhile Char.isDigit with
      | ':' :: tail => if ys.takeWhile Char.isDigit = [] then none else some tail
      | _ => none := rfl

theorem dropDigit_head (cs rest : List Char)
    (hsafe : ∀ c ∈ cs, safeChar c = true) (hrest : restOK rest) :
    ∀ x xs, (cs ++ rest).dropWhile Char.isDigit = x :: xs → x ≠ ':' := by
  induction cs with
  | nil =>
    intro x xs h
    cases rest with
    | nil => simp at h
    | cons r rs =>
      obtain ⟨hd, hc⟩ := hrest
      simp only [List.nil_append, List.dropWhile_cons, hd] at h
      simp only [Bool.false_eq_true, if_false, List.cons.injEq] at h
      obtain ⟨h1, _⟩ := h
      subst h1
      exact hc
  | cons d ds ih =>
    intro x xs h
    by_cases hd : d.isDigit = true
    · simp only [List.cons_append, List.dropWhile_cons, hd, if_true] at h
      exact ih (fun c hc => hsafe c (List.mem_cons_of_mem _ hc)) x xs h
    · simp only [List.cons_append, List.dropWhile_cons, hd] at h
      simp only [Bool.false_eq_true, if_false, List.cons.injEq] at h
      obtain ⟨h1, _⟩ := h
      subst h1
      intro hx
      subst hx
      have := hsafe ':' (by simp)
      simp [safeChar] at this
  
theorem scanClear_safe : ∀ (l rest : List Char),
    (∀ c ∈ l, safeChar c = true) → restOK rest → ScanClear l rest := by
  intro l
  induction l with
  | nil => intro rest _ _; trivial
  | cons c cs ih =>
    intro rest hsafe hrest
    refine ⟨?_, ih rest (fun x hx => hsafe x (List.mem_cons_of_mem _ hx)) hrest⟩
    by_cases hq : c = 'Q'
    · subst hq
      cases hdrop : (cs ++ rest).dropWhile Char.isDigit with
      | nil => rw [matchQMarker_eq, hdrop]
      | cons x xs =>
        have hx := dropDigit_head cs rest
          (fun z hz => hsafe z (List.mem_cons_of_mem _ hz)) hrest x xs hdrop
        rw [matchQMarker_eq, hdrop]
        split
        · rename_i tail heq
          rw [List.cons.injEq] at heq
          exact absurd heq.1 hx
        · rfl
    · exact matchQMarker_ne_Q c _ hq

theorem scanClear_noQ : ∀ (l rest : List Char), (∀ c ∈ l, c ≠ 'Q') → ScanClear l rest := by
  intro l
  induction l with
  | nil => intro rest _; trivial
  | cons c cs ih =>
    intro rest h
    exact ⟨matchQMarker_ne_Q c _ (h c (by simp)),
      ih rest (fun x hx => h x (List.mem_cons_of_mem _ hx))⟩

theorem scanClear_append : ∀ (a b rest : List Char),
    ScanClear a (b ++ rest) → ScanClear b rest → ScanClear (a ++ b) rest := by
  intro a
  induction a with
  | nil => intro b rest _ hb; simpa using hb
  | cons c cs ih =>
    intro b rest ha hb
    obtain ⟨h1, h2⟩ := ha
    exact ⟨by simpa [List.append_assoc] using h1, ih b rest h2 hb⟩

theorem splitQAux_skip : ∀ (l rest acc : List Char) (f : Nat),
    ScanClear l rest → (l ++ rest).length < f →
    splitQAux f (l ++ rest) acc = splitQAux (rest.length + 1) rest (l.reverse ++ acc) := by
  intro l
  induction l with
  | nil =>
    intro rest acc f _ hf
    simpa using splitQAux_congr f rest acc (rest.length + 1) (by simpa using hf) (by omega)
  | cons c cs ih =>
    intro rest acc f hsc hf
    cases f with
    | zero => simp at hf
    | succ g =>
      have h1 := hsc.1
      simp only [List.cons_append, splitQAux, List.append_eq, h1]
      rw [ih rest (c :: acc) g hsc.2 (by simp at hf ⊢; omega)]
      simp

theorem safeChar_not_ws (c : Char) (h : safeChar c = true) (hs : c ≠ ' ') :
    c.isWhitespace = false := by
  simp only [safeChar, Bool.or_eq_true, beq_iff_eq] at h
  rcases h with h | h
  · by_contra hw
    simp only [Bool.not_eq_false, Char.isWhitespace, Bool.or_eq_true, decide_eq_true_eq] at hw
    rcases hw with ((hw | hw) | hw) | hw <;> subst hw <;> simp at h hs
  · exact absurd h hs

theorem safeText_chars (s : String) (h : safeText s = true) :
    ∀ c ∈ s.data, safeChar c = true := by
  simp only [safeText, Bool.and_eq_true, List.all_eq_true] at h
  exact fun c hc => h.1.1.2 c hc

theorem safeText_ne_nil (s : String) (h : safeText s = true) : s.data ≠ [] := by
  simp only [safeText, Bool.and_eq_true] at h
  have := h.1.1.1
  simpa using this

theorem safeText_head_not_ws (s : String) (h : safeText s = true) :
    ∀ c, s.data.head? = some c → c.isWhitespace = false := by
  intro c hc
  have hchars := safeText_chars s h
  have hmem : c ∈ s.data := by
    cases hd : s.data with
    | nil => rw [hd] at hc; cases hc
    | cons a rest => rw [hd] at hc; simp at hc; simp [hd, hc]
  have hne : c ≠ ' ' := by
    intro hcc
    subst hcc
    simp only [safeText, Bool.and_eq_true] at h
    have := h.1.2
    rw [hc] at this
    simp at this
  exact safeChar_not_ws c (hchars c hmem) hne

theorem safeText_last_not_ws (s : String) (h : safeText s = true) :
    ∀ c, s.data.getLast? = some c → c.isWhitespace = false := by
  intro c hc
  have hchars := safeText_chars s h
  have hmem : c ∈ s.data := by
    have hin : c ∈ s.data.getLast? := by simp [Option.mem_def, hc]
    obtain ⟨h9, hx⟩ := List.mem_getLast?_eq_getLast hin
    rw [hx]
    exact List.getLast_mem h9
  have hne : c ≠ ' ' := by
    intro hcc
    subst hcc
    simp only [safeText, Bool.and_eq_true] at h
    have := h.2
    rw [hc] at this
    simp at this
  exact safeChar_not_ws c (hchars c hmem) hne

theorem safeQuestion_fields (q : ParsedQuestion) (h : safeQuestion q = true) :
    safeText q.question = true ∧ safeText q.options.A = true ∧ safeText q.options.B = true ∧
    safeText q.options.C = true ∧ safeText q.options.D = true ∧ safeText q.explanation = true ∧
    (q.correctAnswer = "A" ∨ q.correctAnswer = "B" ∨ q.correctAnswer = "C" ∨
      q.correctAnswer = "D") := by
  simp only [safeQuestion, Bool.and_eq_true] at h
  obtain ⟨⟨⟨⟨⟨⟨h1, h2⟩, h3⟩, h4⟩, h5⟩, h6⟩, h7⟩ := h
  refine ⟨h1, h2, h3, h4, h5, h6, ?_⟩
  simpa using h7

theorem safeLabel_chars (q : ParsedQuestion) (h : safeQuestion q = true) :
    ∀ c ∈ q.correctAnswer.data, safeChar c = true := by
  obtain ⟨_, _, _, _, _, _, h7⟩ := safeQuestion_fields q h
  rcases h7 with h7 | h7 | h7 | h7 <;> rw [h7] <;> decide

theorem restOK_render (i : Nat) (qs : List ParsedQuestion) : restOK (renderChars i qs) := by
  cases qs with
  | nil => trivial
  | cons q qs2 => exact ⟨by decide, by decide⟩

set_option maxHeartbeats 2000000 in
theorem scanClear_blockBody (q : ParsedQuestion) (hq : safeQuestion q = true)
    (rest : List Char) (hrest : restOK rest) : ScanClear (blockBody q) rest := by
  obtain ⟨h1, h2, h3, h4, h5, h6, _⟩ := safeQuestion_fields q hq
  refine scanClear_append _ _ _ ?_ (scanClear_noQ _ _ (by decide))
  refine scanClear_append _ _ _ ?_
    (scanClear_safe _ _ (safeText_chars _ h6) ⟨by decide, by decide⟩)
  refine scanClear_append _ _ _ ?_ (scanClear_noQ _ _ (by decide))
  refine scanClear_append _ _ _ ?_
    (scanClear_safe _ _ (safeLabel_chars q hq) ⟨by decide, by decide⟩)
  refine scanClear_append _ _ _ ?_ (scanClear_noQ _ _ (by decide))
  refine scanClear_append _ _ _ ?_
    (scanClear_safe _ _ (safeText_chars _ h5) ⟨by decide, by decide⟩)
  refine scanClear_append _ _ _ ?_ (scanClear_noQ _ _ (by decide))
  refine scanClear_append _ _ _ ?_
    (scanClear_safe _ _ (safeText_chars _ h4) ⟨by decide, by decide⟩)
  refine scanClear_append _ _ _ ?_ (scanClear_noQ _ _ (by decide))
  refine scanClear_append _ _ _ ?_
    (scanClear_safe _ _ (safeText_chars _ h3) ⟨by decide, by decide⟩)
  refine scanClear_append _ _ _ ?_ (scanClear_noQ _ _ (by decide))
  refine scanClear_append _ _ _ ?_
    (scanClear_safe _ _ (safeText_chars _ h2) ⟨by decide, by decide⟩)
  refine scanClear_append _ _ _ ?_ (scanClear_noQ _ _ (by decide))
  exact ⟨matchQMarker_ne_Q ' ' _ (by decide),
    scanClear_safe _ _ (safeText_chars _ h1) ⟨by decide, by decide⟩⟩

theorem splitQ_render : ∀ (qs : List ParsedQuestion) (i : Nat) (acc : List Char) (f : Nat),
    allSafe qs = true → (renderChars i qs).length < f →
    splitQAux f (renderChars i qs) acc = acc.reverse :: qs.map (fun q => blockBody q) := by
  intro qs
  induction qs with
  | nil =>
    intro i acc f _ hf
    cases f with
    | zero => simp [renderChars] at hf
    | succ g => simp [renderChars, splitQAux]
  | cons q qs2 ih =>
    intro i acc f hsafe hf
    have hq : safeQuestion q = true := by
      simp [allSafe] at hsafe
      exact hsafe.1
    have hqs2 : allSafe qs2 = true := by
      simp [allSafe] at hsafe ⊢
      exact fun x hx => hsafe.2 x hx
    cases f with
    | zero => simp [renderChars] at hf
    | succ g =>
      have hmark := matchQMarker_marker (ordChar i) (ordChar_digit i)
        (blockBody q ++ renderChars (i + 1) qs2)
      simp only [renderChars, splitQAux, hmark]
      have hlen : (blockBody q ++ renderChars (i + 1) qs2).length < g := by
        simp only [renderChars, List.length_cons] at hf
        omega
      rw [splitQAux_skip (blockBody q) (renderChars (i + 1) qs2) [] g
        (scanClear_blockBody q hq _ (restOK_render (i + 1) qs2)) hlen]
      rw [ih (i + 1) ((blockBody q).reverse ++ []) ((renderChars (i + 1) qs2).length + 1)
        hqs2 (by omega)]
      simp

theorem dropWhile_ws_of_head (l : List Char)
    (h : ∀ c, l.head? = some c → c.isWhitespace = false) :
    l.dropWhile Char.isWhitespace = l := by
  cases l with
  | nil => rfl
  | cons c cs => simp [List.dropWhile_cons, h c rfl]

theorem trimChars_stable (l : List Char)
    (hh : ∀ c, l.head? = some c → c.isWhitespace = false)
    (hl : ∀ c, l.getLast? = some c → c.isWhitespace = false) :
    trimChars l = l := by
  unfold trimChars
  rw [dropWhile_ws_of_head l hh]
  rw [dropWhile_ws_of_head l.reverse
    (by intro c hc; rw [List.head?_reverse] at hc; exact hl c hc)]
  exact List.reverse_reverse l

theorem trimChars_space (t : List Char)
    (hh : ∀ c, t.head? = some c → c.isWhitespace = false)
    (hl : ∀ c, t.getLast? = some c → c.isWhitespace = false) :
    trimChars (' ' :: t) = t := by
  unfold trimChars
  have h1 : (' ' :: t).dropWhile Char.isWhitespace = t.dropWhile Char.isWhitespace := by
    simp [List.dropWhile_cons]
  rw [h1, dropWhile_ws_of_head t hh]
  rw [dropWhile_ws_of_head t.reverse
    (by intro c hc; rw [List.head?_reverse] at hc; exact hl c hc)]
  exact List.reverse_reverse t

theorem trimChars_space_newline (t : List Char) (hne : t ≠ [])
    (hh : ∀ c, t.head? = some c → c.isWhitespace = false)
    (hl : ∀ c, t.getLast? = some c → c.isWhitespace = false) :
    trimChars (' ' :: (t ++ ['\n'])) = t := by
  unfold trimChars
  have h1 : (' ' :: (t ++ ['\n'])).dropWhile Char.isWhitespace =
      (t ++ ['\n']).dropWhile Char.isWhitespace := by
    simp [List.dropWhile_cons]
  have h2 : (t ++ ['\n']).dropWhile Char.isWhitespace = t ++ ['\n'] :=
    dropWhile_ws_of_head _
      (by intro c hc
          rw [List.head?_append_of_ne_nil t hne] at hc
          exact hh c hc)
  rw [h1, h2, List.reverse_append]
  have h3 : (['\n'] : List Char).reverse ++ t.reverse = '\n' :: t.reverse := by simp
  rw [h3]
  have h4 : ('\n' :: t.reverse).dropWhile Char.isWhitespace =
      t.reverse.dropWhile Char.isWhitespace := by
    simp [List.dropWhile_cons]
  rw [h4, dropWhile_ws_of_head t.reverse
    (by intro c hc; rw [List.head?_reverse] at hc; exact hl c hc)]
  exact List.reverse_reverse t

theorem app_ne_nil_left (a b : List Char) (ha : a ≠ []) : a ++ b ≠ [] := by
  intro h
  rw [List.append_eq_nil] at h
  exact ha h.1

theorem app_ne_nil_right (a b : List Char) (hb : b ≠ []) : a ++ b ≠ [] := by
  intro h
  rw [List.append_eq_nil] at h
  exact hb h.2

theorem trim_blockBody (q : ParsedQuestion) (hq : safeQuestion q = true) :
    trimChars (blockBody q) =
      q.question.data ++ ("\nA) ".data ++ (q.options.A.data ++ ("\nB) ".data ++
      (q.options.B.data ++ ("\nC) ".data ++ (q.options.C.data ++ ("\nD) ".data ++
      (q.options.D.data ++ ("\nCorrect: ".data ++ (q.correctAnswer.data ++
      ("\nExplanation: ".data ++ q.explanation.data))))))))))) := by
  obtain ⟨h1, h2, h3, h4, h5, h6, _⟩ := safeQuestion_fields q hq
  have hshape : blockBody q =
      ' ' :: ((q.question.data ++ ("\nA) ".data ++ (q.options.A.data ++ ("\nB) ".data ++
      (q.options.B.data ++ ("\nC) ".data ++ (q.options.C.data ++ ("\nD) ".data ++
      (q.options.D.data ++ ("\nCorrect: ".data ++ (q.correctAnswer.data ++
      ("\nExplanation: ".data ++ q.explanation.data)))))))))))) ++ ['\n']) := by
    simp [blockBody, List.append_assoc]
  rw [hshape]
  apply trimChars_space_newline
  · exact app_ne_nil_left _ _ (safeText_ne_nil _ h1)
  · intro c hc
    rw [List.head?_append_of_ne_nil _ (safeText_ne_nil _ h1)] at hc
    exact safeText_head_not_ws _ h1 c hc
  · intro c hc
    rw [List.getLast?_append_of_ne_nil _ (app_ne_nil_left _ _ (by decide))] at hc
    rw [List.getLast?_append_of_ne_nil _ (app_ne_nil_left _ _ (safeText_ne_nil _ h2))] at hc
    rw [List.getLast?_append_of_ne_nil _ (app_ne_nil_left _ _ (by decide))] at hc
    rw [List.getLast?_append_of_ne_nil _ (app_ne_nil_left _ _ (safeText_ne_nil _ h3))] at hc
    rw [List.getLast?_append_of_ne_nil _ (app_ne_nil_left _ _ (by decide))] at hc
    rw [List.getLast?_append_of_ne_nil _ (app_ne_nil_left _ _ (safeText_ne_nil _ h4))] at hc
    rw [List.getLast?_append_of_ne_nil _ (app_ne_nil_left _ _ (by decide))] at hc
    rw [List.getLast?_append_of_ne_nil _ (app_ne_nil_left _ _ (safeText_ne_nil _ h5))] at hc
    rw [List.getLast?_append_of_ne_nil _ (app_ne_nil_left _ _ (by decide))] at hc
    rw [List.getLast?_append_of_ne_nil _
      (app_ne_nil_right _ _ (app_ne_nil_left _ _ (by decide)))] at hc
    rw [List.getLast?_append_of_ne_nil _ (app_ne_nil_left _ _ (by decide))] at hc
    rw [List.getLast?_append_of_ne_nil _ (safeText_ne_nil _ h6)] at hc
    exact safeText_last_not_ws _ h6 c hc

theorem splitOnChar_last (sep : Char) : ∀ (a acc : List Char), (∀ c ∈ a, c ≠ sep) →
    splitOnCharAux sep a acc = [acc.reverse ++ a] := by
  intro a
  induction a with
  | nil => intro acc _; simp [splitOnCharAux]
  | cons c cs ih =>
    intro acc h
    have hc : c ≠ sep := h c (by simp)
    simp only [splitOnCharAux, if_neg hc]
    rw [ih (c :: acc) (fun x hx => h x (List.mem_cons_of_mem _ hx))]
    simp

theorem splitOnChar_append (sep : Char) : ∀ (a b acc : List Char), (∀ c ∈ a, c ≠ sep) →
    splitOnCharAux sep (a ++ sep :: b) acc =
      (acc.reverse ++ a) :: splitOnCharAux sep b [] := by
  intro a
  induction a with
  | nil => intro b acc _; simp [splitOnCharAux]
  | cons c cs ih =>
    intro b acc h
    have hc : c ≠ sep := h c (by simp)
    simp only [List.cons_append, splitOnCharAux, List.append_eq, if_neg hc]
    rw [ih b (c :: acc) (fun x hx => h x (List.mem_cons_of_mem _ hx))]
    simp

theorem splitOnChar_chunk2 (sep : Char) (p a rest acc : List Char)
    (hp : ∀ c ∈ p, c ≠ sep) (ha : ∀ c ∈ a, c ≠ sep) :
    splitOnCharAux sep (p ++ (a ++ sep :: rest)) acc =
      (acc.reverse ++ (p ++ a)) :: splitOnCharAux sep rest [] := by
  rw [← List.append_assoc]
  rw [splitOnChar_append sep (p ++ a) rest acc
    (by intro c hc; rcases List.mem_append.mp hc with h | h; exacts [hp c h, ha c h])]

theorem splitOnChar_chunk2_last (sep : Char) (p a acc : List Char)
    (hp : ∀ c ∈ p, c ≠ sep) (ha : ∀ c ∈ a, c ≠ sep) :
    splitOnCharAux sep (p ++ a) acc = [acc.reverse ++ (p ++ a)] := by
  rw [splitOnChar_last sep (p ++ a) acc
    (by intro c hc; rcases List.mem_append.mp hc with h | h; exacts [hp c h, ha c h])]

theorem safe_chars_ne_nl (l : List Char) (h : ∀ c ∈ l, safeChar c = true) :
    ∀ c ∈ l, c ≠ '\n' := by
  intro c hc he
  subst he
  have := h '\n' hc
  simp [safeChar] at this

theorem safeText_label (q : ParsedQuestion) (hq : safeQuestion q = true) :
    safeText q.correctAnswer = true := by
  obtain ⟨_, _, _, _, _, _, h7⟩ := safeQuestion_fields q hq
  rcases h7 with h | h | h | h <;> rw [h] <;> decide

set_option maxHeartbeats 2000000 in
theorem splitLines_inner (q : ParsedQuestion) (hq : safeQuestion q = true) :
    splitOnCharAux '\n' (trimChars (blockBody q)) [] =
      [q.question.data,
       "A) ".data ++ q.options.A.data,
       "B) ".data ++ q.options.B.data,
       "C) ".data ++ q.options.C.data,
       "D) ".data ++ q.options.D.data,
       "Correct: ".data ++ q.correctAnswer.data,
       "Explanation: ".data ++ q.explanation.data] := by
  obtain ⟨h1, h2, h3, h4, h5, h6, _⟩ := safeQuestion_fields q hq
  have hca := safeText_label q hq
  rw [trim_blockBody q hq]
  show splitOnCharAux '\n'
    (q.question.data ++ '\n' :: ("A) ".data ++ (q.options.A.data ++ '\n' ::
      ("B) ".data ++ (q.options.B.data ++ '\n' :: ("C) ".data ++ (q.options.C.data ++ '\n' ::
      ("D) ".data ++ (q.options.D.data ++ '\n' :: ("Correct: ".data ++ (q.correctAnswer.data ++ '\n' ::
      ("Explanation: ".data ++ q.explanation.data)))))))))))) [] = _
  rw [splitOnChar_append '\n' q.question.data _ []
    (safe_chars_ne_nl _ (safeText_chars _ h1))]
  rw [splitOnChar_chunk2 '\n' "A) ".data q.options.A.data _ []
    (by decide) (safe_chars_ne_nl _ (safeText_chars _ h2))]
  rw [splitOnChar_chunk2 '\n' "B) ".data q.options.B.data _ []
    (by decide) (safe_chars_ne_nl _ (safeText_chars _ h3))]
  rw [splitOnChar_chunk2 '\n' "C) ".data q.options.C.data _ []
    (by decide) (safe_chars_ne_nl _ (safeText_chars _ h4))]
  rw [splitOnChar_chunk2 '\n' "D) ".data q.options.D.data _ []
    (by decide) (safe_chars_ne_nl _ (safeText_chars _ h5))]
  rw [splitOnChar_chunk2 '\n' "Correct: ".data q.correctAnswer.data _ []
    (by decide) (safe_chars_ne_nl _ (safeText_chars _ hca))]
  rw [splitOnChar_chunk2_last '\n' "Explanation: ".data q.explanation.data []
    (by decide) (safe_chars_ne_nl _ (safeText_chars _ h6))]
  simp

theorem safeText_ne_empty (s : String) (h : safeText s = true) : s ≠ "" := by
  intro he
  exact safeText_ne_nil s h (by rw [he])

theorem bne_empty_of_ne (s : String) (h : s.data ≠ []) : (s != "") = true := by
  simp only [bne_iff_ne, ne_eq]
  intro he
  exact h (by rw [he])

theorem trim_prefixed_line (p : List Char) (hp : p ≠ [])
    (hph : ∀ c, p.head? = some c → c.isWhitespace = false)
    (t : String) (ht : safeText t = true) :
    jsTrim (String.mk (p ++ t.data)) = String.mk (p ++ t.data) := by
  show String.mk (trimChars (p ++ t.data)) = String.mk (p ++ t.data)
  rw [trimChars_stable (p ++ t.data)
    (by intro c hc; rw [List.head?_append_of_ne_nil p hp] at hc; exact hph c hc)
    (by intro c hc
        rw [List.getLast?_append_of_ne_nil p (safeText_ne_nil t ht)] at hc
        exact safeText_last_not_ws t ht c hc)]

theorem jsTrim_safe (s : String) (h : safeText s = true) : jsTrim s = s := by
  show String.mk (trimChars s.data) = s
  rw [trimChars_stable s.data (safeText_head_not_ws s h) (safeText_last_not_ws s h)]

theorem strStartsWith_mem : ∀ (p l : List Char), strStartsWith p l = true → ∀ c ∈ p, c ∈ l := by
  intro p
  induction p with
  | nil => intro l _ c hc; cases hc
  | cons a p2 ih =>
    intro l h c hc
    cases l with
    | nil => cases h
    | cons b l2 =>
      simp only [strStartsWith, Bool.and_eq_true, decide_eq_true_eq] at h
      rcases List.mem_cons.mp hc with hcc | hcc
      · subst hcc
        simp [h.1]
      · exact List.mem_cons_of_mem _ (ih l2 h.2 c hcc)

theorem strStartsWith_safe_false (p l : List Char) (hl : ∀ c ∈ l, safeChar c = true)
    (x : Char) (hx : x ∈ p) (hxs : safeChar x = false) : strStartsWith p l = false := by
  cases hb : strStartsWith p l with
  | false => rfl
  | true =>
    have := hl x (strStartsWith_mem p l hb x hx)
    rw [this] at hxs
    cases hxs

set_option maxHeartbeats 4000000 in
theorem parseBlock_blockBody (q : ParsedQuestion) (hq : safeQuestion q = true) :
    parseBlock (String.mk (blockBody q)) = some q := by
  obtain ⟨h1, h2, h3, h4, h5, h6, h7⟩ := safeQuestion_fields q hq
  have hca := safeText_label q hq
  have hlines : (jsSplitNewline (jsTrim (String.mk (blockBody q)))).filter
      (fun l => jsTrim l != "") =
      [q.question,
       String.mk ("A) ".data ++ q.options.A.data),
       String.mk ("B) ".data ++ q.options.B.data),
       String.mk ("C) ".data ++ q.options.C.data),
       String.mk ("D) ".data ++ q.options.D.data),
       String.mk ("Correct: ".data ++ q.correctAnswer.data),
       String.mk ("Explanation: ".data ++ q.explanation.data)] := by
    show ((splitOnCharAux '\n' (trimChars (blockBody q)) []).map String.mk).filter
      (fun l => jsTrim l != "") = _
    rw [splitLines_inner q hq]
    have hb0 : (jsTrim q.question != "") = true := by
      rw [jsTrim_safe _ h1]
      exact bne_empty_of_ne _ (safeText_ne_nil _ h1)
    have hbA : (jsTrim (String.mk ("A) ".data ++ q.options.A.data)) != "") = true := by
      rw [trim_prefixed_line _ (by decide) (by intro c hc; cases hc; decide) _ h2]
      exact bne_empty_of_ne _ (app_ne_nil_left _ _ (by decide))
    have hbB : (jsTrim (String.mk ("B) ".data ++ q.options.B.data)) != "") = true := by
      rw [trim_prefixed_line _ (by decide) (by intro c hc; cases hc; decide) _ h3]
      exact bne_empty_of_ne _ (app_ne_nil_left _ _ (by decide))
    have hbC : (jsTrim (String.mk ("C) ".data ++ q.options.C.data)) != "") = true := by
      rw [trim_prefixed_line _ (by decide) (by intro c hc; cases hc; decide) _ h4]
      exact bne_empty_of_ne _ (app_ne_nil_left _ _ (by decide))
    have hbD : (jsTrim (String.mk ("D) ".data ++ q.options.D.data)) != "") = true := by
      rw [trim_prefixed_line _ (by decide) (by intro c hc; cases hc; decide) _ h5]
      exact bne_empty_of_ne _ (app_ne_nil_left _ _ (by decide))
    have hbCa : (jsTrim (String.mk ("Correct: ".data ++ q.correctAnswer.data)) != "") = true := by
      rw [trim_prefixed_line _ (by decide) (by intro c hc; cases hc; decide) _ hca]
      exact bne_empty_of_ne _ (app_ne_nil_left _ _ (by decide))
    have hbE : (jsTrim (String.mk ("Explanation: ".data ++ q.explanation.data)) != "") = true := by
      rw [trim_prefixed_line _ (by decide) (by intro c hc; cases hc; decide) _ h6]
      exact bne_empty_of_ne _ (app_ne_nil_left _ _ (by decide))
    simp only [List.map_cons, List.map_nil, List.filter_cons, hb0, hbA, hbB, hbC, hbD,
      hbCa, hbE, if_true, List.filter_nil]
  have q0a : jsStartsWith q.question "A)" = false :=
    strStartsWith_safe_false _ _ (safeText_chars _ h1) ')' (by decide) (by decide)
  have q0b : jsStartsWith q.question "B)" = false :=
    strStartsWith_safe_false _ _ (safeText_chars _ h1) ')' (by decide) (by decide)
  have q0c : jsStartsWith q.question "C)" = false :=
    strStartsWith_safe_false _ _ (safeText_chars _ h1) ')' (by decide) (by decide)
  have q0d : jsStartsWith q.question "D)" = false :=
    strStartsWith_safe_false _ _ (safeText_chars _ h1) ')' (by decide) (by decide)
  have q0e : jsStartsWith q.question "Correct:" = false :=
    strStartsWith_safe_false _ _ (safeText_chars _ h1) ':' (by decide) (by decide)
  have q0f : jsStartsWith q.question "Explanation:" = false :=
    strStartsWith_safe_false _ _ (safeText_chars _ h1) ':' (by decide) (by decide)
  have hstep0 : ∀ st, parseLineStep st q.question = st := by
    intro st
    simp [parseLineStep, q0a, q0b, q0c, q0d, q0e, q0f]
  have eA2 : jsTrim (String.mk (' ' :: q.options.A.data)) = q.options.A := by
    show String.mk (trimChars (' ' :: q.options.A.data)) = q.options.A
    rw [trimChars_space _ (safeText_head_not_ws _ h2) (safeText_last_not_ws _ h2)]
  have hstep1 : ∀ st, parseLineStep st (String.mk ("A) ".data ++ q.options.A.data)) =
      { st with A := q.options.A } := by
    intro st
    simp [parseLineStep, jsStartsWith, strStartsWith, jsDrop, eA2]
  have eB2 : jsTrim (String.mk (' ' :: q.options.B.data)) = q.options.B := by
    show String.mk (trimChars (' ' :: q.options.B.data)) = q.options.B
    rw [trimChars_space _ (safeText_head_not_ws _ h3) (safeText_last_not_ws _ h3)]
  have hstep2 : ∀ st, parseLineStep st (String.mk ("B) ".data ++ q.options.B.data)) =
      { st with B := q.options.B } := by
    intro st
    simp [parseLineStep, jsStartsWith, strStartsWith, jsDrop, eB2]
  have eC2 : jsTrim (String.mk (' ' :: q.options.C.data)) = q.options.C := by
    show String.mk (trimChars (' ' :: q.options.C.data)) = q.options.C
    rw [trimChars_space _ (safeText_head_not_ws _ h4) (safeText_last_not_ws _ h4)]
  have hstep3 : ∀ st, parseLineStep st (String.mk ("C) ".data ++ q.options.C.data)) =
      { st with C := q.options.C } := by
    intro st
    simp [parseLineStep, jsStartsWith, strStartsWith, jsDrop, eC2]
  have eD2 : jsTrim (String.mk (' ' :: q.options.D.data)) = q.options.D := by
    show String.mk (trimChars (' ' :: q.options.D.data)) = q.options.D
    rw [trimChars_space _ (safeText_head_not_ws _ h5) (safeText_last_not_ws _ h5)]
  have hstep4 : ∀ st, parseLineStep st (String.mk ("D) ".data ++ q.options.D.data)) =
      { st with D := q.options.D } := by
    intro st
    simp [parseLineStep, jsStartsWith, strStartsWith, jsDrop, eD2]
  have eCa2 : jsTrim (String.mk (' ' :: q.correctAnswer.data)) = q.correctAnswer := by
    show String.mk (trimChars (' ' :: q.correctAnswer.data)) = q.correctAnswer
    rw [trimChars_space _ (safeText_head_not_ws _ hca) (safeText_last_not_ws _ hca)]
  have hctn : (["A", "B", "C", "D"].contains q.correctAnswer) = true := by
    rcases h7 with h | h | h | h <;> rw [h] <;> decide
  have hstep5 : ∀ st, parseLineStep st (String.mk ("Correct: ".data ++ q.correctAnswer.data)) =
      { st with correct := some q.correctAnswer } := by
    intro st
    simp [parseLineStep, jsStartsWith, strStartsWith, jsDrop, eCa2, hctn]
    intro hA hB hC hD
    rcases h7 with h | h | h | h
    exacts [absurd h hA, absurd h hB, absurd h hC, absurd h hD]
  have eE2 : jsTrim (String.mk (' ' :: q.explanation.data)) = q.explanation := by
    show String.mk (trimChars (' ' :: q.explanation.data)) = q.explanation
    rw [trimChars_space _ (safeText_head_not_ws _ h6) (safeText_last_not_ws _ h6)]
  have hstep6 : ∀ st, parseLineStep st (String.mk ("Explanation: ".data ++ q.explanation.data)) =
      { st with explanation := q.explanation } := by
    intro st
    simp [parseLineStep, jsStartsWith, strStartsWith, jsDrop, eE2]
  have hq0 : jsTrim q.question = q.question := jsTrim_safe _ h1
  have nA : ¬ q.options.A = "" := safeText_ne_empty _ h2
  have nB : ¬ q.options.B = "" := safeText_ne_empty _ h3
  have nC : ¬ q.options.C = "" := safeText_ne_empty _ h4
  have nD : ¬ q.options.D = "" := safeText_ne_empty _ h5
  simp only [parseBlock, hlines]
  simp only [List.length_cons, List.length_nil, List.foldl_cons, List.foldl_nil]
  rw [hstep0, hstep1, hstep2, hstep3, hstep4, hstep5, hstep6]
  simp [optInit, nA, nB, nC, nD, hq0]

theorem blocks_roundtrip : ∀ (qs : List ParsedQuestion), allSafe qs = true →
    ((qs.map (fun q => String.mk (blockBody q))).filter
      (fun b => jsTrim b != "")).filterMap parseBlock = qs := by
  intro qs
  induction qs with
  | nil => intro _; rfl
  | cons q qs2 ih =>
    intro hs
    have hq : safeQuestion q = true := by
      simp [allSafe] at hs
      exact hs.1
    have hqs2 : allSafe qs2 = true := by
      simp [allSafe] at hs ⊢
      exact fun x hx => hs.2 x hx
    obtain ⟨h1, _, _, _, _, _, _⟩ := safeQuestion_fields q hq
    have hne : (jsTrim (String.mk (blockBody q)) != "") = true := by
      show (String.mk (trimChars (blockBody q)) != "") = true
      rw [trim_blockBody q hq]
      exact bne_empty_of_ne _ (app_ne_nil_left _ _ (safeText_ne_nil _ h1))
    simp only [List.map_cons, List.filter_cons, hne, if_true, List.filterMap_cons,
      parseBlock_blockBody q hq]
    rw [ih hqs2]

theorem parse_render (qs : List ParsedQuestion) (hsafe : allSafe qs = true)
    (hlo : 1 ≤ qs.length) (hhi : qs.length ≤ 5) :
    parseAIResponse (renderQuestions qs) = Except.ok qs := by
  have hsplit : jsSplitQMarkers (renderQuestions qs) =
      "" :: qs.map (fun q => String.mk (blockBody q)) := by
    show (splitQAux ((renderChars 0 qs).length + 1) (renderChars 0 qs) []).map String.mk = _
    rw [splitQ_render qs 0 [] _ hsafe (by omega)]
    simp
  have h0 : (jsTrim "" != "") = false := by decide
  have hlen : ¬ qs.length = 0 := by omega
  simp only [parseAIResponse, hsplit, List.filter_cons, h0, Bool.false_eq_true,
    if_false, ite_false]
  rw [blocks_roundtrip qs hsafe]
  simp [hlen, List.take_of_length_le hhi]

/-- Claim C3, counterexample: on totally malformed input the parser does
not return an empty list: the zero-questions throw inside parseAIResponse
is caught by its own catch block and re-thrown, so the function fails
with the fixed parse error instead of returning zero entries. -/
theorem claim_C3_counterexample :
    parseAIResponse "totally malformed input" =
      Except.error "Failed to parse AI response. Please try again." := rfl

/-- Claim C3 as amended: on a response made of k complete well-formed
question blocks (1 ≤ k ≤ 5, safe text fields) the parser returns exactly
those k questions in source order — in particular five blocks give five
entries and three blocks give three; every successful result has between
one and five entries; and the only failure the parser can produce is the
fixed parse-error message, raised (rather than an empty list returned)
when no valid question is recoverable. -/
theorem claim_C3_parse_contract :
    (∀ qs : List ParsedQuestion, allSafe qs = true → 1 ≤ qs.length → qs.length ≤ 5 →
      parseAIResponse (renderQuestions qs) = Except.ok qs) ∧
    (∀ s l, parseAIResponse s = Except.ok l → 1 ≤ l.length ∧ l.length ≤ 5) ∧
    (∀ s e, parseAIResponse s = Except.error e →
      e = "Failed to parse AI response. Please try again.") := by
  refine ⟨fun qs h a b => parse_render qs h a b, fun s l h => parse_ok_length s l h, ?_⟩
  intro s e h
  simp only [parseAIResponse] at h
  split at h
  · cases h
    rfl
  · cases h

/-- Witness for claim C3: the five-block and the three-block fixture
responses parse back to exactly their questions, in order. -/
theorem claim_C3_parse_contract_witness :
    parseAIResponse (renderQuestions demoParsed5) = Except.ok demoParsed5 ∧
    parseAIResponse (renderQuestions demoParsed3) = Except.ok demoParsed3 :=
  ⟨claim_C3_parse_contract.1 demoParsed5 (by decide) (by decide) (by decide),
   claim_C3_parse_contract.1 demoParsed3 (by decide) (by decide) (by decide)⟩
